import Mathlib

/-!
Verification of the rs-bean dependency-injection container against its
specification. The definitions below are a shallow embedding of
src/bean.rs: pure data is translated directly, the RwLock-guarded HashMap
becomes an association list threaded through the operations, Arc pointers
become instances tagged with a fresh allocation address (address equality
models Arc pointer equality), and the user factory closures are modeled by
the straight-line behaviour the specification talks about: resolve a list
of dependencies in order through the dependency provider, then fail with a
fixed error or produce a value of the registered type.
-/

namespace RsBean

/-- Scope of a bean registration, from `enum Scope` in bean.rs. -/
inductive Scope where
  | Singleton
  | Prototype
  deriving DecidableEq

/-- Rust type identity: `TypeId::of::<T>()` together with `type_name::<T>()`
is determined by the type parameter T, so one name models the pair. -/
abbrev TypeName := String

/-- Identifier for a bean registration, from `enum Identifier` in bean.rs
(Named / TypeSpec / Unnamed). -/
inductive Identifier where
  | Named (name : String)
  | TypeSpec (ty : TypeName)
  | Unnamed (ty : TypeName)
  deriving DecidableEq

/-- Display implementation for Identifier, bean.rs lines 36-44. -/
def Identifier.display : Identifier → String
  | .Named name => "Bean(" ++ name ++ ")"
  | .TypeSpec ty => "Bean(" ++ ty ++ ")"
  | .Unnamed ty => "Bean(" ++ ty ++ ")[unnamed]"

/-- Shared type-erased instance (an `Arc<dyn Any + Send + Sync>`). The
address records the allocation, so address equality is Arc pointer
equality; `ty` is the dynamic type consulted by downcast. -/
structure Instance where
  addr : Nat
  ty : TypeName
  deriving DecidableEq

/-- Downcast of a type-erased instance (the `downcast::<T>()` calls in
bean.rs lines 269-272, 286-289 and 310-312): succeeds exactly when the
dynamic type matches the requested type. -/
def downcast (inst : Instance) (ty : TypeName) : Except String Instance :=
  if inst.ty = ty then .ok inst else .error "Type downcast failed"

/-- Factory capability stored in a BeanDefinition. A user closure
`F: Fn(&mut Dependencies) -> Result<T, String>` is modeled by the
dependency requests it issues through the provider (each entry a type and
an optional name, resolved in order via Dependencies::get_named, bean.rs
lines 101-111), followed by either the fixed user error `fails` or the
production of a value of type `outTy`; the `Arc::new` wrapping performed
in register and register_named (bean.rs lines 148-151 and 182-185) is the
fresh allocation of the produced instance. For a factory registered with
type parameter T the Rust signature forces `outTy = T`. -/
structure Factory where
  deps : List (TypeName × Option String)
  fails : Option String
  outTy : TypeName
  deriving DecidableEq

/-- Stored registration, from `struct BeanDefinition` in bean.rs lines
123-127. The field `inst` models the Rust field `instance` (a Lean
keyword). -/
structure BeanDefinition where
  factory : Factory
  scope : Scope
  inst : Option Instance
  deriving DecidableEq

/-- The definition map guarded by the RwLock, `HashMap<Identifier,
BeanDefinition>`, as an association list. -/
abbrev BeanMap := List (Identifier × BeanDefinition)

/-- Lookup in the definition map (HashMap::get). -/
def mapGet : BeanMap → Identifier → Option BeanDefinition
  | [], _ => none
  | (k, v) :: rest, id => if k = id then some v else mapGet rest id

/-- Membership in the definition map (HashMap::contains_key). -/
def mapContains (m : BeanMap) (id : Identifier) : Bool :=
  (mapGet m id).isSome

/-- Insertion into the definition map (HashMap::insert): replaces the
binding when the key is present, appends otherwise. -/
def mapInsert : BeanMap → Identifier → BeanDefinition → BeanMap
  | [], id, d => [(id, d)]
  | (k, v) :: rest, id, d =>
    if k = id then (id, d) :: rest else (k, v) :: mapInsert rest id d

/-- Removal from the definition map (HashMap::remove). -/
def mapRemove : BeanMap → Identifier → BeanMap
  | [], _ => []
  | (k, v) :: rest, id => if k = id then rest else (k, v) :: mapRemove rest id

/-- Container state, from `struct BeanContainer` in bean.rs lines 129-131.
The counter `nextAddr` supplies fresh Arc allocation addresses. -/
structure BeanContainer where
  beans : BeanMap
  nextAddr : Nat
  deriving DecidableEq

/-- Fresh container (BeanContainer::new, bean.rs lines 134-138). -/
def BeanContainer.new : BeanContainer := ⟨[], 0⟩

/-- Creation context, bean.rs lines 46-50: the stack of identifiers
currently being constructed, bottom first (Vec push appends). -/
abbrev CreationContext := List Identifier

/-- Current dependency path (CreationContext::get_path, bean.rs lines
83-90): the stack joined in order by arrows. -/
def CreationContext.get_path (creating : CreationContext) : String :=
  String.intercalate " -> " (creating.map Identifier.display)

/-- CreationContext::enter, bean.rs lines 59-77: refuse when the stack
already holds more than 100 identifiers, then refuse with the circular
dependency chain when the identifier is already on the stack, otherwise
push it. -/
def CreationContext.enter (creating : CreationContext) (id : Identifier) :
    Except String CreationContext :=
  if creating.length > 100 then
    .error "Dependency chain too deep (>100)"
  else if id ∈ creating then
    .error ("Circular dependency detected: " ++
      CreationContext.get_path creating ++ " -> " ++ id.display)
  else
    .ok (creating ++ [id])

/-- CreationContext::exit, bean.rs lines 79-81: pop the top of the
stack. -/
def CreationContext.exit (creating : CreationContext) : CreationContext :=
  creating.dropLast

/-- Result of one resolution: the outcome together with the container and
the creation context after the call (both are mutated in place in Rust). -/
abbrev ResolveResult := Except String Instance × BeanContainer × CreationContext

/-- Shape of the resolution procedure a factory body recurses through. -/
abbrev Getter := BeanContainer → TypeName → Option String → CreationContext → ResolveResult

/-- Key selection at the start of get_with_context, bean.rs lines 242-257:
a given name selects the Named key directly; otherwise prefer TypeSpec,
fall back to Unnamed, and fail with the not-found error when neither
exists. -/
def resolveId (m : BeanMap) (ty : TypeName) (name : Option String) :
    Except String Identifier :=
  match name with
  | some n => .ok (Identifier.Named n)
  | none =>
    if mapContains m (Identifier.TypeSpec ty) then .ok (Identifier.TypeSpec ty)
    else if mapContains m (Identifier.Unnamed ty) then .ok (Identifier.Unnamed ty)
    else .error ("Bean not found: " ++ (Identifier.TypeSpec ty).display)

/-- Singleton fast-path read, bean.rs lines 263-274: some cached instance
exactly when the definition exists, has Singleton scope and already holds
an instance. -/
def singletonCached (m : BeanMap) (id : Identifier) : Option Instance :=
  match mapGet m id with
  | some defn =>
    match defn.scope with
    | Scope.Singleton => defn.inst
    | Scope.Prototype => none
  | none => none

/-- Publish step for singletons, bean.rs lines 301-308: under the writer
lock, store the newly created instance only when no instance has been
cached for the identifier in the meantime. -/
def publish (m : BeanMap) (id : Identifier) (newInstance : Instance) : BeanMap :=
  match mapGet m id with
  | some defn =>
    match defn.inst with
    | none => mapInsert m id { defn with inst := some newInstance }
    | some _ => m
  | none => m

/-- Dependency resolution performed by a factory body: each requested
(type, optional name) pair is resolved in order through the shared
container and creation context (Dependencies::get / get_named, bean.rs
lines 101-111), stopping at the first error. -/
def resolveDeps (g : Getter) : List (TypeName × Option String) → BeanContainer →
    CreationContext → Except String Unit × BeanContainer × CreationContext
  | [], s, ctx => (.ok (), s, ctx)
  | (ty, name) :: rest, s, ctx =>
    let r := g s ty name ctx
    match r.1 with
    | .error e => (.error e, r.2.1, r.2.2)
    | .ok _ => resolveDeps g rest r.2.1 r.2.2

/-- Factory invocation (BeanFactory::create through the closure built in
register / register_named): resolve the dependencies, then either return
the user error or allocate a fresh shared instance of the factory's output
type. -/
def runFactory (g : Getter) (s : BeanContainer) (f : Factory)
    (ctx : CreationContext) : ResolveResult :=
  let r := resolveDeps g f.deps s ctx
  match r.1 with
  | .error e => (.error e, r.2.1, r.2.2)
  | .ok _ =>
    match f.fails with
    | some e => (.error e, r.2.1, r.2.2)
    | none =>
      (.ok ⟨r.2.1.nextAddr, f.outTy⟩,
        { r.2.1 with nextAddr := r.2.1.nextAddr + 1 }, r.2.2)

/-- Tail of the construction closure once the factory and scope have been
cloned out of the definition, bean.rs lines 292-312: run the factory,
publish the result when the scope is Singleton, and downcast the new
instance for the caller. -/
def constructRun (g : Getter) (s : BeanContainer) (ty : TypeName)
    (id : Identifier) (factory : Factory) (scope : Scope)
    (ctx : CreationContext) : ResolveResult :=
  let r := runFactory g s factory ctx
  match r.1 with
  | .error e => (.error e, r.2.1, r.2.2)
  | .ok newInstance =>
    let s3 :=
      if scope = Scope.Singleton then
        { r.2.1 with beans := publish r.2.1.beans id newInstance }
      else r.2.1
    (downcast newInstance ty, s3, r.2.2)

/-- Body of the construction closure in get_with_context, bean.rs lines
276-313: look the definition up (not-found error otherwise), re-check the
singleton cache, then clone the factory and scope out of the definition
and run the construction tail. -/
def construct (g : Getter) (s : BeanContainer) (ty : TypeName)
    (id : Identifier) (ctx : CreationContext) : ResolveResult :=
  match mapGet s.beans id with
  | none => (.error ("Bean not found: " ++ id.display), s, ctx)
  | some defn =>
    match defn.scope, defn.inst with
    | Scope.Singleton, some inst => (downcast inst ty, s, ctx)
    | _, _ => constructRun g s ty id defn.factory defn.scope ctx

/-- Core resolution, bean.rs lines 236-317: select the key, enter it on
the creation context, take the singleton fast path when an instance is
cached, and otherwise construct through the closure and pop the context.
The fast-path branch mirrors the early `return` in bean.rs lines 263-274,
which leaves the function without calling context.exit, so that branch
returns the entered context unchanged. The fuel argument only bounds the
recursion of the Lean model (Rust recursion has no counterpart); the
distinguished fuel error is unreachable once fuel exceeds the depth
bound. -/
def get_with_context (fuel : Nat) : Getter :=
  match fuel with
  | 0 => fun s _ _ ctx => (.error "Fuel exhausted", s, ctx)
  | fuel + 1 => fun s ty name ctx =>
    match resolveId s.beans ty name with
    | .error e => (.error e, s, ctx)
    | .ok id =>
      match CreationContext.enter ctx id with
      | .error e => (.error e, s, ctx)
      | .ok ctx1 =>
        match singletonCached s.beans id with
        | some inst => (downcast inst ty, s, ctx1)
        | none =>
          let r := construct (get_with_context fuel) s ty id ctx1
          (r.1, r.2.1, CreationContext.exit r.2.2)

/-- BeanContainer::try_get, bean.rs lines 228-234: run the resolution on a
fresh creation context and discard the context afterwards. -/
def try_get (fuel : Nat) (s : BeanContainer) (ty : TypeName)
    (name : Option String) : Except String Instance × BeanContainer :=
  let r := get_with_context fuel s ty name []
  (r.1, r.2.1)

/-- Public BeanContainer::get, bean.rs lines 216-220: unwraps the try_get
result and panics on error; the panic (process abort, no value returned)
is modeled as `none`. -/
def BeanContainer.get (fuel : Nat) (s : BeanContainer) (ty : TypeName) :
    Option (Instance × BeanContainer) :=
  match try_get fuel s ty none with
  | (.ok i, s') => some (i, s')
  | (.error _, _) => none

/-- Public BeanContainer::get_named, bean.rs lines 222-226: unwraps the
try_get result for a named bean and panics on error, modeled as `none`. -/
def BeanContainer.get_named (fuel : Nat) (s : BeanContainer) (ty : TypeName)
    (name : String) : Option (Instance × BeanContainer) :=
  match try_get fuel s ty (some name) with
  | (.ok i, s') => some (i, s')
  | (.error _, _) => none

/-- BeanContainer::register, bean.rs lines 140-171: fail when a TypeSpec
entry for the type exists, otherwise remove any Unnamed entry for the type
and insert the TypeSpec definition. The factory is described by its
dependency requests and outcome; its output type is the registered type,
as forced by the Rust signature. -/
def register (s : BeanContainer) (ty : TypeName) (scope : Scope)
    (deps : List (TypeName × Option String)) (fails : Option String) :
    Except String Unit × BeanContainer :=
  let typeSpecId := Identifier.TypeSpec ty
  let unnamedId := Identifier.Unnamed ty
  let definition : BeanDefinition := ⟨⟨deps, fails, ty⟩, scope, none⟩
  if mapContains s.beans typeSpecId then
    (.error ("Bean already registered: " ++ typeSpecId.display), s)
  else
    (.ok (),
      { s with beans := mapInsert (mapRemove s.beans unnamedId) typeSpecId definition })

/-- BeanContainer::register_named, bean.rs lines 173-214: fail when the
name is taken, otherwise insert the Named definition and, when neither a
TypeSpec nor an Unnamed entry exists for the type, also insert an Unnamed
definition sharing the same factory and scope. -/
def register_named (s : BeanContainer) (name : String) (ty : TypeName)
    (scope : Scope) (deps : List (TypeName × Option String))
    (fails : Option String) : Except String Unit × BeanContainer :=
  let namedId := Identifier.Named name
  let typeSpecId := Identifier.TypeSpec ty
  let unnamedId := Identifier.Unnamed ty
  let factory : Factory := ⟨deps, fails, ty⟩
  if mapContains s.beans namedId then
    (.error ("Bean already registered with name: " ++ name), s)
  else
    let beans1 := mapInsert s.beans namedId ⟨factory, scope, none⟩
    let beans2 :=
      if !mapContains beans1 typeSpecId && !mapContains beans1 unnamedId then
        mapInsert beans1 unnamedId ⟨factory, scope, none⟩
      else beans1
    (.ok (), { s with beans := beans2 })

/-- BeanContainer::contains, bean.rs lines 320-329. -/
def contains (s : BeanContainer) (ty : TypeName) (name : Option String) : Bool :=
  match name with
  | some n => mapContains s.beans (Identifier.Named n)
  | none =>
    mapContains s.beans (Identifier.TypeSpec ty) ||
      mapContains s.beans (Identifier.Unnamed ty)

/-- BeanContainer::len, bean.rs lines 332-334. -/
def BeanContainer.len (s : BeanContainer) : Nat :=
  s.beans.length

/-- BeanContainer::is_empty, bean.rs lines 337-339. -/
def BeanContainer.is_empty (s : BeanContainer) : Bool :=
  s.beans.isEmpty

/-- Publish-and-return step distilled from bean.rs lines 301-312 with the
cache value read under the writer lock made explicit, which under
concurrent resolution of the same singleton may already hold the instance
published by a racing thread. The first component is the cache after the
step (store only when empty, so the first writer wins); the second is what
this resolver hands back to its caller: always the locally constructed
newInstance, also when another resolver already published a different
instance. -/
def publishStep (cached : Option Instance) (newInstance : Instance) :
    Option Instance × Instance :=
  (match cached with
   | none => some newInstance
   | some old => some old,
   newInstance)

/-! Lemmas about the association-list operations that model the HashMap. -/

theorem mapGet_insert_self (m : BeanMap) (k : Identifier) (d : BeanDefinition) :
    mapGet (mapInsert m k d) k = some d := by
  induction m with
  | nil => simp [mapInsert, mapGet]
  | cons p rest ih =>
    obtain ⟨k', v⟩ := p
    by_cases h : k' = k
    · simp [mapInsert, mapGet, h]
    · simp [mapInsert, mapGet, h, ih]

theorem mapGet_insert_ne (m : BeanMap) (k : Identifier) (d : BeanDefinition)
    (j : Identifier) (hne : k ≠ j) : mapGet (mapInsert m k d) j = mapGet m j := by
  induction m with
  | nil => simp [mapInsert, mapGet, hne]
  | cons p rest ih =>
    obtain ⟨k', v⟩ := p
    by_cases h : k' = k
    · subst h
      simp [mapInsert, mapGet, hne]
    · by_cases h2 : k' = j
      · simp [mapInsert, mapGet, h, h2, Ne.symm hne]
      · simp [mapInsert, mapGet, h, h2, ih]

theorem mapGet_remove_ne (m : BeanMap) (k j : Identifier) (hne : k ≠ j) :
    mapGet (mapRemove m k) j = mapGet m j := by
  induction m with
  | nil => simp [mapRemove, mapGet]
  | cons p rest ih =>
    obtain ⟨k', v⟩ := p
    by_cases h : k' = k
    · subst h
      simp [mapRemove, mapGet, hne]
    · by_cases h2 : k' = j
      · simp [mapRemove, mapGet, h, h2, Ne.symm hne]
      · simp [mapRemove, mapGet, h, h2, ih]

theorem mapGet_eq_none_iff (m : BeanMap) (j : Identifier) :
    mapGet m j = none ↔ j ∉ m.map Prod.fst := by
  induction m with
  | nil => simp [mapGet]
  | cons p rest ih =>
    obtain ⟨k, v⟩ := p
    by_cases h : k = j
    · subst h
      simp [mapGet]
    · simp [mapGet, h, ih, Ne.symm h]

theorem keys_insert_of_isSome (m : BeanMap) (k : Identifier) (d : BeanDefinition)
    (h : (mapGet m k).isSome) :
    (mapInsert m k d).map Prod.fst = m.map Prod.fst := by
  induction m with
  | nil => simp [mapGet] at h
  | cons p rest ih =>
    obtain ⟨k', v⟩ := p
    by_cases hk : k' = k
    · subst hk
      simp [mapInsert]
    · simp [mapGet, hk] at h
      simp [mapInsert, hk, ih h]

theorem mem_keys_insert (m : BeanMap) (k : Identifier) (d : BeanDefinition)
    (j : Identifier) (h : j ∈ (mapInsert m k d).map Prod.fst) :
    j = k ∨ j ∈ m.map Prod.fst := by
  induction m with
  | nil => simpa [mapInsert] using h
  | cons p rest ih =>
    obtain ⟨k', v⟩ := p
    by_cases hk : k' = k
    · subst hk
      rcases (by simpa [mapInsert] using h : j = k' ∨ j ∈ rest.map Prod.fst) with h1 | h1
      · exact Or.inl h1
      · exact Or.inr (by simp [h1])
    · rcases (by simpa [mapInsert, hk] using h : j = k' ∨ j ∈ (mapInsert rest k d).map Prod.fst) with h1 | h1
      · exact Or.inr (by simp [h1])
      · rcases ih h1 with h2 | h2
        · exact Or.inl h2
        · exact Or.inr (by simp [h2])

theorem keys_nodup_insert (m : BeanMap) (k : Identifier) (d : BeanDefinition)
    (h : (m.map Prod.fst).Nodup) : ((mapInsert m k d).map Prod.fst).Nodup := by
  induction m with
  | nil => simp [mapInsert]
  | cons p rest ih =>
    obtain ⟨k', v⟩ := p
    simp only [List.map_cons, List.nodup_cons] at h
    by_cases hk : k' = k
    · subst hk
      simpa [mapInsert] using h
    · have heq : mapInsert ((k', v) :: rest) k d = (k', v) :: mapInsert rest k d := by
        simp [mapInsert, hk]
      rw [heq]
      simp only [List.map_cons, List.nodup_cons]
      refine ⟨?_, ih h.2⟩
      intro hmem
      rcases mem_keys_insert rest k d k' hmem with h1 | h1
      · exact hk h1
      · exact h.1 h1

theorem keys_remove_sublist (m : BeanMap) (k : Identifier) :
    ((mapRemove m k).map Prod.fst).Sublist (m.map Prod.fst) := by
  induction m with
  | nil => simp [mapRemove]
  | cons p rest ih =>
    obtain ⟨k', v⟩ := p
    by_cases hk : k' = k
    · subst hk
      have h1 : mapRemove ((k', v) :: rest) k' = rest := by simp [mapRemove]
      rw [h1, List.map_cons]
      exact List.sublist_cons_self _ _
    · simpa [mapRemove, hk] using ih.cons₂ k'

theorem keys_nodup_remove (m : BeanMap) (k : Identifier)
    (h : (m.map Prod.fst).Nodup) : ((mapRemove m k).map Prod.fst).Nodup :=
  (keys_remove_sublist m k).nodup h

theorem mapGet_remove_self (m : BeanMap) (k : Identifier)
    (h : (m.map Prod.fst).Nodup) : mapGet (mapRemove m k) k = none := by
  induction m with
  | nil => simp [mapRemove, mapGet]
  | cons p rest ih =>
    obtain ⟨k', v⟩ := p
    simp only [List.map_cons, List.nodup_cons] at h
    by_cases hk : k' = k
    · subst hk
      have h1 : mapRemove ((k', v) :: rest) k' = rest := by simp [mapRemove]
      rw [h1]
      exact (mapGet_eq_none_iff rest k').mpr h.1
    · simp [mapRemove, mapGet, hk, ih h.2]

/-! Evolution of a container across a resolution call: no key is added or
removed, factories and scopes are unchanged, and an instance cache can only
go from empty to holding an instance freshly allocated during the call,
with the dynamic type produced by that definition's factory. -/

def DefEvolves (a a' : Nat) (d d' : BeanDefinition) : Prop :=
  d'.factory = d.factory ∧ d'.scope = d.scope ∧
    (d'.inst = d.inst ∨
      (d.inst = none ∧ ∃ i, d'.inst = some i ∧ i.ty = d.factory.outTy ∧
        a ≤ i.addr ∧ i.addr < a'))

def Evolves (s s' : BeanContainer) : Prop :=
  s.nextAddr ≤ s'.nextAddr ∧
  s'.beans.map Prod.fst = s.beans.map Prod.fst ∧
  ∀ j d, mapGet s.beans j = some d →
    ∃ d', mapGet s'.beans j = some d' ∧ DefEvolves s.nextAddr s'.nextAddr d d'

theorem Evolves.refl (s : BeanContainer) : Evolves s s := by
  refine ⟨le_refl _, rfl, fun j d h => ⟨d, h, rfl, rfl, Or.inl rfl⟩⟩

theorem Evolves.trans {s1 s2 s3 : BeanContainer} (h12 : Evolves s1 s2)
    (h23 : Evolves s2 s3) : Evolves s1 s3 := by
  obtain ⟨ha12, hk12, hd12⟩ := h12
  obtain ⟨ha23, hk23, hd23⟩ := h23
  refine ⟨le_trans ha12 ha23, hk23.trans hk12, fun j d h => ?_⟩
  obtain ⟨d2, hg2, hf2, hs2, hi2⟩ := hd12 j d h
  obtain ⟨d3, hg3, hf3, hs3, hi3⟩ := hd23 j d2 hg2
  refine ⟨d3, hg3, hf3.trans hf2, hs3.trans hs2, ?_⟩
  rcases hi2 with hi2 | ⟨hn2, i, hsome2, hty2, hlo2, hhi2⟩
  · rcases hi3 with hi3 | ⟨hn3, i, hsome3, hty3, hlo3, hhi3⟩
    · exact Or.inl (hi3.trans hi2)
    · exact Or.inr ⟨hi2.symm.trans hn3, i, hsome3, by rw [hty3, hf2],
        le_trans ha12 hlo3, hhi3⟩
  · rcases hi3 with hi3 | ⟨hn3, i', hsome3, hty3, hlo3, hhi3⟩
    · exact Or.inr ⟨hn2, i, hi3.trans hsome2, hty2, hlo2, lt_of_lt_of_le hhi2 ha23⟩
    · rw [hn3] at hsome2
      exact absurd hsome2 (by simp)

theorem Evolves.keys_eq {s s' : BeanContainer} (h : Evolves s s') :
    s'.beans.map Prod.fst = s.beans.map Prod.fst := h.2.1

theorem Evolves.len_eq {s s' : BeanContainer} (h : Evolves s s') :
    BeanContainer.len s' = BeanContainer.len s := by
  have := congrArg List.length h.2.1
  simpa [BeanContainer.len] using this

theorem Evolves.get_none {s s' : BeanContainer} (h : Evolves s s')
    (j : Identifier) (hj : mapGet s.beans j = none) : mapGet s'.beans j = none := by
  rw [mapGet_eq_none_iff] at hj ⊢
  rw [h.2.1]
  exact hj

theorem Evolves.bump (s : BeanContainer) (n : Nat) (h : s.nextAddr ≤ n) :
    Evolves s { s with nextAddr := n } :=
  ⟨h, rfl, fun _ d hj => ⟨d, hj, rfl, rfl, Or.inl rfl⟩⟩

/-! Small inversion lemmas for the building blocks of resolution. -/

theorem triple_eq {α β γ : Type} {a r : α} {b s : β} {c t : γ}
    (h : (a, b, c) = (r, s, t)) : a = r ∧ b = s ∧ c = t := by
  refine ⟨congrArg (fun p => p.1) h, congrArg (fun p => p.2.1) h,
    congrArg (fun p => p.2.2) h⟩

theorem downcast_ok {inst : Instance} {ty : TypeName} {i : Instance}
    (h : downcast inst ty = .ok i) : i = inst ∧ inst.ty = ty := by
  unfold downcast at h
  split at h
  next hty =>
    injection h with h1
    exact ⟨h1.symm, hty⟩
  next => exact absurd h (by simp)

theorem downcast_self {inst : Instance} {ty : TypeName} (h : inst.ty = ty) :
    downcast inst ty = .ok inst := by
  simp [downcast, h]

theorem downcast_fail {inst : Instance} {ty : TypeName} (h : inst.ty ≠ ty) :
    downcast inst ty = .error "Type downcast failed" := by
  simp [downcast, h]

theorem enter_ok {ctx : CreationContext} {id : Identifier} {c : CreationContext}
    (h : CreationContext.enter ctx id = .ok c) :
    c = ctx ++ [id] ∧ ctx.length ≤ 100 ∧ id ∉ ctx := by
  unfold CreationContext.enter at h
  split at h
  next => exact absurd h (by simp)
  next hdeep =>
    split at h
    next => exact absurd h (by simp)
    next hmem =>
      injection h with h1
      exact ⟨h1.symm, by omega, hmem⟩

theorem enter_ok_of {ctx : CreationContext} {id : Identifier}
    (hlen : ctx.length ≤ 100) (hmem : id ∉ ctx) :
    CreationContext.enter ctx id = .ok (ctx ++ [id]) := by
  unfold CreationContext.enter
  rw [if_neg (by omega), if_neg hmem]

theorem enter_err_mem {ctx : CreationContext} {id : Identifier}
    (hlen : ctx.length ≤ 100) (hmem : id ∈ ctx) :
    CreationContext.enter ctx id =
      .error ("Circular dependency detected: " ++
        CreationContext.get_path ctx ++ " -> " ++ id.display) := by
  unfold CreationContext.enter
  rw [if_neg (by omega), if_pos hmem]

theorem enter_err_deep {ctx : CreationContext} {id : Identifier}
    (hlen : ctx.length > 100) :
    CreationContext.enter ctx id = .error "Dependency chain too deep (>100)" := by
  unfold CreationContext.enter
  rw [if_pos hlen]

theorem singletonCached_none_of_uncached {m : BeanMap} {id : Identifier}
    {d : BeanDefinition} (hD : mapGet m id = some d) (hI : d.inst = none) :
    singletonCached m id = none := by
  obtain ⟨fac, sc, oin⟩ := d
  cases oin with
  | none =>
    unfold singletonCached
    rw [hD]
    cases sc <;> rfl
  | some x => exact absurd hI (by simp)

theorem singletonCached_eq_some {m : BeanMap} {id : Identifier}
    {d : BeanDefinition} {i : Instance} (hD : mapGet m id = some d)
    (hS : d.scope = Scope.Singleton) (hI : d.inst = some i) :
    singletonCached m id = some i := by
  obtain ⟨fac, sc, oin⟩ := d
  cases sc with
  | Singleton =>
    unfold singletonCached
    rw [hD]
    exact hI
  | Prototype => exact absurd hS (by simp)

theorem singletonCached_some {m : BeanMap} {id : Identifier} {i : Instance}
    (h : singletonCached m id = some i) :
    ∃ d, mapGet m id = some d ∧ d.scope = Scope.Singleton ∧ d.inst = some i := by
  unfold singletonCached at h
  rcases hD : mapGet m id with _ | ⟨fac, sc, oin⟩
  · rw [hD] at h
    exact absurd h (by simp)
  · rw [hD] at h
    cases sc with
    | Singleton => exact ⟨⟨fac, Scope.Singleton, oin⟩, hD ▸ rfl, rfl, h⟩
    | Prototype => exact absurd h (by simp)

theorem singletonCached_none_of_absent {m : BeanMap} {id : Identifier}
    (hD : mapGet m id = none) : singletonCached m id = none := by
  unfold singletonCached
  rw [hD]

theorem publish_get_ne {m : BeanMap} {id j : Identifier} {i : Instance}
    (hne : j ≠ id) : mapGet (publish m id i) j = mapGet m j := by
  unfold publish
  rcases hD : mapGet m id with _ | ⟨fac, sc, oin⟩
  · simp only [hD]
  · simp only [hD]
    cases oin with
    | none => exact mapGet_insert_ne m id _ j (Ne.symm hne)
    | some x => rfl

theorem publish_get_self_empty {m : BeanMap} {id : Identifier} {i : Instance}
    {d : BeanDefinition} (hD : mapGet m id = some d) (hI : d.inst = none) :
    mapGet (publish m id i) id = some { d with inst := some i } := by
  obtain ⟨fac, sc, oin⟩ := d
  cases oin with
  | none =>
    unfold publish
    rw [hD]
    exact mapGet_insert_self m id _
  | some x => exact absurd hI (by simp)

theorem publish_get_self_full {m : BeanMap} {id : Identifier} {i : Instance}
    {d : BeanDefinition} {x : Instance} (hD : mapGet m id = some d)
    (hI : d.inst = some x) : publish m id i = m := by
  obtain ⟨fac, sc, oin⟩ := d
  cases oin with
  | some y =>
    unfold publish
    rw [hD]
  | none => exact absurd hI (by simp)

theorem publish_keys {m : BeanMap} {id : Identifier} {i : Instance} :
    (publish m id i).map Prod.fst = m.map Prod.fst := by
  unfold publish
  rcases hD : mapGet m id with _ | ⟨fac, sc, oin⟩
  · simp only [hD]
  · simp only [hD]
    cases oin with
    | none => exact keys_insert_of_isSome m id _ (by rw [hD]; rfl)
    | some x => rfl

/-! Unfolding equations for the fuel-indexed resolution procedure. -/

theorem get_with_context_zero (s : BeanContainer) (ty : TypeName)
    (name : Option String) (ctx : CreationContext) :
    get_with_context 0 s ty name ctx = (.error "Fuel exhausted", s, ctx) := rfl

theorem get_with_context_succ (fuel : Nat) (s : BeanContainer) (ty : TypeName)
    (name : Option String) (ctx : CreationContext) :
    get_with_context (fuel + 1) s ty name ctx =
      match resolveId s.beans ty name with
      | .error e => (.error e, s, ctx)
      | .ok id =>
        match CreationContext.enter ctx id with
        | .error e => (.error e, s, ctx)
        | .ok ctx1 =>
          match singletonCached s.beans id with
          | some inst => (downcast inst ty, s, ctx1)
          | none =>
            let r := construct (get_with_context fuel) s ty id ctx1
            (r.1, r.2.1, CreationContext.exit r.2.2) := rfl

/-! Frame properties of resolution: the creation context is only ever
extended past its entry value, the container only evolves (no key added or
removed, caches only filled with fresh instances), identifiers already on
the entry context keep their definitions untouched, and a successful
result has the requested dynamic type. -/

def StepOK (g : Getter) : Prop :=
  ∀ s ty name ctx r s' ctx', g s ty name ctx = (r, s', ctx') →
    (∃ ext, ctx' = ctx ++ ext) ∧ Evolves s s' ∧
    (∀ j, j ∈ ctx → mapGet s'.beans j = mapGet s.beans j) ∧
    (∀ i, r = .ok i → i.ty = ty)

theorem resolveDeps_spec (g : Getter) (hg : StepOK g) :
    ∀ (deps : List (TypeName × Option String)) (s : BeanContainer)
      (ctx : CreationContext) (r : Except String Unit) (s' : BeanContainer)
      (ctx' : CreationContext), resolveDeps g deps s ctx = (r, s', ctx') →
      (∃ ext, ctx' = ctx ++ ext) ∧ Evolves s s' ∧
      (∀ j, j ∈ ctx → mapGet s'.beans j = mapGet s.beans j) := by
  intro deps
  induction deps with
  | nil =>
    intro s ctx r s' ctx' h
    obtain ⟨h1, h2, h3⟩ := triple_eq h
    subst h2
    subst h3
    exact ⟨⟨[], by simp⟩, Evolves.refl s, fun j _ => rfl⟩
  | cons p rest ih =>
    obtain ⟨ty, name⟩ := p
    intro s ctx r s' ctx' h
    rcases hG : g s ty name ctx with ⟨r1, s2, ctx2⟩
    obtain ⟨⟨ext1, hext1⟩, hev1, hfr1, _⟩ := hg s ty name ctx r1 s2 ctx2 hG
    rcases r1 with e | u
    · have hred : resolveDeps g ((ty, name) :: rest) s ctx = (.error e, s2, ctx2) := by
        simp [resolveDeps, hG]
      rw [hred] at h
      obtain ⟨h1, h2, h3⟩ := triple_eq h
      subst h2
      subst h3
      exact ⟨⟨ext1, hext1⟩, hev1, hfr1⟩
    · have hred : resolveDeps g ((ty, name) :: rest) s ctx =
          resolveDeps g rest s2 ctx2 := by
        simp [resolveDeps, hG]
      rw [hred] at h
      obtain ⟨⟨ext2, hext2⟩, hev2, hfr2⟩ := ih s2 ctx2 r s' ctx' h
      refine ⟨⟨ext1 ++ ext2, by rw [hext2, hext1, List.append_assoc]⟩,
        Evolves.trans hev1 hev2, fun j hj => ?_⟩
      rw [hfr2 j (by rw [hext1]; exact List.mem_append_left _ hj), hfr1 j hj]

theorem runFactory_spec (g : Getter) (hg : StepOK g) (s : BeanContainer)
    (f : Factory) (ctx : CreationContext) (r : Except String Instance)
    (s' : BeanContainer) (ctx' : CreationContext)
    (h : runFactory g s f ctx = (r, s', ctx')) :
    (∃ ext, ctx' = ctx ++ ext) ∧ Evolves s s' ∧
    (∀ j, j ∈ ctx → mapGet s'.beans j = mapGet s.beans j) ∧
    (∀ i, r = .ok i →
      i.ty = f.outTy ∧ s.nextAddr ≤ i.addr ∧ i.addr + 1 = s'.nextAddr) := by
  rcases hR : resolveDeps g f.deps s ctx with ⟨rd, s2, ctx2⟩
  obtain ⟨hext, hev, hfr⟩ := resolveDeps_spec g hg f.deps s ctx rd s2 ctx2 hR
  rcases rd with e | u
  · have hred : runFactory g s f ctx = (.error e, s2, ctx2) := by
      simp [runFactory, hR]
    rw [hred] at h
    obtain ⟨h1, h2, h3⟩ := triple_eq h
    subst h2
    subst h3
    exact ⟨hext, hev, hfr, fun i hi => by rw [← h1] at hi; exact absurd hi (by simp)⟩
  · rcases hf : f.fails with _ | e
    · have hred : runFactory g s f ctx =
          (.ok ⟨s2.nextAddr, f.outTy⟩, { s2 with nextAddr := s2.nextAddr + 1 }, ctx2) := by
        simp [runFactory, hR, hf]
      rw [hred] at h
      obtain ⟨h1, h2, h3⟩ := triple_eq h
      subst h2
      subst h3
      refine ⟨hext, Evolves.trans hev (Evolves.bump s2 (s2.nextAddr + 1) (by omega)),
        fun j hj => hfr j hj, fun i hi => ?_⟩
      rw [← h1] at hi
      injection hi with hi
      subst hi
      exact ⟨rfl, hev.1, rfl⟩
    · have hred : runFactory g s f ctx = (.error e, s2, ctx2) := by
        simp [runFactory, hR, hf]
      rw [hred] at h
      obtain ⟨h1, h2, h3⟩ := triple_eq h
      subst h2
      subst h3
      exact ⟨hext, hev, hfr, fun i hi => by rw [← h1] at hi; exact absurd hi (by simp)⟩

theorem constructRun_spec (g : Getter) (hg : StepOK g) (s : BeanContainer)
    (ty : TypeName) (id : Identifier) (f : Factory) (scope : Scope)
    (ctx : CreationContext) (r : Except String Instance) (s' : BeanContainer)
    (ctx' : CreationContext)
    (hfac : ∀ d, mapGet s.beans id = some d → d.factory = f)
    (h : constructRun g s ty id f scope ctx = (r, s', ctx')) :
    (∃ ext, ctx' = ctx ++ ext) ∧ Evolves s s' ∧
    (∀ j, j ∈ ctx → j ≠ id → mapGet s'.beans j = mapGet s.beans j) ∧
    (∀ i, r = .ok i → i.ty = ty) := by
  rcases hF : runFactory g s f ctx with ⟨rf, s2, ctx2⟩
  obtain ⟨hext, hev, hfr, hok⟩ := runFactory_spec g hg s f ctx rf s2 ctx2 hF
  rcases rf with e | newInstance
  · have hred : constructRun g s ty id f scope ctx = (.error e, s2, ctx2) := by
      simp [constructRun, hF]
    rw [hred] at h
    obtain ⟨h1, h2, h3⟩ := triple_eq h
    subst h2
    subst h3
    exact ⟨hext, hev, fun j hj _ => hfr j hj, fun i hi => by
      rw [← h1] at hi; exact absurd hi (by simp)⟩
  · obtain ⟨hty, hlo, hhi⟩ := hok newInstance rfl
    rcases hS : scope with _ | _
    · have hred : constructRun g s ty id f scope ctx =
          (downcast newInstance ty,
            { s2 with beans := publish s2.beans id newInstance }, ctx2) := by
        simp [constructRun, hF, hS]
      rw [hred] at h
      obtain ⟨h1, h2, h3⟩ := triple_eq h
      subst h2
      subst h3
      refine ⟨hext, ?_, ?_, ?_⟩
      · obtain ⟨ha, hk, hd⟩ := hev
        refine ⟨ha, ?_, ?_⟩
        · show (publish s2.beans id newInstance).map Prod.fst = s.beans.map Prod.fst
          rw [publish_keys, hk]
        · intro j d hj
          show ∃ d', mapGet (publish s2.beans id newInstance) j = some d' ∧
            DefEvolves s.nextAddr s2.nextAddr d d'
          obtain ⟨d2, hg2, hf2, hs2, hi2⟩ := hd j d hj
          by_cases hji : j = id
          · subst hji
            rcases hI2 : d2.inst with _ | x
            · refine ⟨{ d2 with inst := some newInstance },
                publish_get_self_empty hg2 hI2, by simpa using hf2,
                by simpa using hs2, ?_⟩
              rcases hi2 with hi2 | ⟨hn2, i, hsome2, hty2, hlo2, hhi2⟩
              · refine Or.inr ⟨hi2.symm.trans hI2, newInstance, by simp, ?_, hlo, by omega⟩
                rw [hty, ← hfac d hj]
              · rw [hI2] at hsome2
                exact absurd hsome2 (by simp)
            · rw [publish_get_self_full hg2 hI2]
              exact ⟨d2, hg2, hf2, hs2, hi2⟩
          · rw [publish_get_ne hji]
            exact ⟨d2, hg2, hf2, hs2, hi2⟩
      · intro j hj hji
        show mapGet (publish s2.beans id newInstance) j = mapGet s.beans j
        rw [publish_get_ne hji]
        exact hfr j hj
      · intro i hi
        rw [← h1] at hi
        exact (downcast_ok hi).1 ▸ (downcast_ok hi).2
    · have hred : constructRun g s ty id f scope ctx =
          (downcast newInstance ty, s2, ctx2) := by
        simp [constructRun, hF, hS]
      rw [hred] at h
      obtain ⟨h1, h2, h3⟩ := triple_eq h
      subst h2
      subst h3
      refine ⟨hext, hev, fun j hj _ => hfr j hj, fun i hi => ?_⟩
      rw [← h1] at hi
      exact (downcast_ok hi).1 ▸ (downcast_ok hi).2

theorem construct_spec (g : Getter) (hg : StepOK g) (s : BeanContainer)
    (ty : TypeName) (id : Identifier) (ctx : CreationContext)
    (r : Except String Instance) (s' : BeanContainer) (ctx' : CreationContext)
    (h : construct g s ty id ctx = (r, s', ctx')) :
    (∃ ext, ctx' = ctx ++ ext) ∧ Evolves s s' ∧
    (∀ j, j ∈ ctx → j ≠ id → mapGet s'.beans j = mapGet s.beans j) ∧
    (∀ i, r = .ok i → i.ty = ty) := by
  rcases hD : mapGet s.beans id with _ | ⟨fac, sc, oin⟩
  · have hred : construct g s ty id ctx =
        (.error ("Bean not found: " ++ id.display), s, ctx) := by
      simp [construct, hD]
    rw [hred] at h
    obtain ⟨h1, h2, h3⟩ := triple_eq h
    subst h2
    subst h3
    exact ⟨⟨[], by simp⟩, Evolves.refl s, fun j _ _ => rfl, fun i hi => by
      rw [← h1] at hi; exact absurd hi (by simp)⟩
  · have hfac : ∀ d, mapGet s.beans id = some d → d.factory = fac := by
      intro d hd
      rw [hD] at hd
      injection hd with hd
      rw [← hd]
    rcases sc with _ | _ <;> rcases oin with _ | inst
    · have hred : construct g s ty id ctx =
          constructRun g s ty id fac Scope.Singleton ctx := by
        simp [construct, hD]
      rw [hred] at h
      exact constructRun_spec g hg s ty id fac Scope.Singleton ctx r s' ctx' hfac h
    · have hred : construct g s ty id ctx = (downcast inst ty, s, ctx) := by
        simp [construct, hD]
      rw [hred] at h
      obtain ⟨h1, h2, h3⟩ := triple_eq h
      subst h2
      subst h3
      exact ⟨⟨[], by simp⟩, Evolves.refl s, fun j _ _ => rfl, fun i hi => by
        rw [← h1] at hi; exact (downcast_ok hi).1 ▸ (downcast_ok hi).2⟩
    · have hred : construct g s ty id ctx =
          constructRun g s ty id fac Scope.Prototype ctx := by
        simp [construct, hD]
      rw [hred] at h
      exact constructRun_spec g hg s ty id fac Scope.Prototype ctx r s' ctx' hfac h
    · have hred : construct g s ty id ctx =
          constructRun g s ty id fac Scope.Prototype ctx := by
        simp [construct, hD]
      rw [hred] at h
      exact constructRun_spec g hg s ty id fac Scope.Prototype ctx r s' ctx' hfac h

theorem exit_extends {ctx : CreationContext} {id : Identifier}
    {ext : CreationContext} :
    ∃ ext2, CreationContext.exit ((ctx ++ [id]) ++ ext) = ctx ++ ext2 := by
  rcases ext with _ | ⟨e, ext'⟩
  · refine ⟨[], ?_⟩
    unfold CreationContext.exit
    rw [List.append_nil, List.dropLast_concat, List.append_nil]
  · refine ⟨id :: (e :: ext').dropLast, ?_⟩
    unfold CreationContext.exit
    rw [List.append_assoc, List.singleton_append, List.dropLast_append_cons,
      List.dropLast_cons₂]

theorem get_with_context_stepOK : ∀ fuel : Nat, StepOK (get_with_context fuel) := by
  intro fuel
  induction fuel with
  | zero =>
    intro s ty name ctx r s' ctx' h
    rw [get_with_context_zero] at h
    obtain ⟨h1, h2, h3⟩ := triple_eq h
    subst h2
    subst h3
    exact ⟨⟨[], by simp⟩, Evolves.refl s, fun j _ => rfl, fun i hi => by
      rw [← h1] at hi; exact absurd hi (by simp)⟩
  | succ fuel ih =>
    intro s ty name ctx r s' ctx' h
    rw [get_with_context_succ] at h
    rcases hI : resolveId s.beans ty name with e | id
    · simp only [hI] at h
      obtain ⟨h1, h2, h3⟩ := triple_eq h
      subst h2
      subst h3
      exact ⟨⟨[], by simp⟩, Evolves.refl s, fun j _ => rfl, fun i hi => by
        rw [← h1] at hi; exact absurd hi (by simp)⟩
    · simp only [hI] at h
      rcases hE : CreationContext.enter ctx id with e | ctx1
      · simp only [hE] at h
        obtain ⟨h1, h2, h3⟩ := triple_eq h
        subst h2
        subst h3
        exact ⟨⟨[], by simp⟩, Evolves.refl s, fun j _ => rfl, fun i hi => by
          rw [← h1] at hi; exact absurd hi (by simp)⟩
      · simp only [hE] at h
        obtain ⟨hctx1, hlen, hmem⟩ := enter_ok hE
        subst hctx1
        rcases hC : singletonCached s.beans id with _ | inst
        · simp only [hC] at h
          rcases hK : construct (get_with_context fuel) s ty id (ctx ++ [id])
            with ⟨r2, s2, ctx2⟩
          simp only [hK] at h
          obtain ⟨h1, h2, h3⟩ := triple_eq h
          subst h2
          subst h3
          obtain ⟨hext, hev, hfr, hty⟩ :=
            construct_spec (get_with_context fuel) ih s ty id (ctx ++ [id])
              r2 s2 ctx2 hK
          obtain ⟨ext, hext⟩ := hext
          subst hext
          refine ⟨exit_extends, hev, ?_, fun i hi => hty i (h1.trans hi)⟩
          intro j hj
          exact hfr j (List.mem_append_left _ hj) (fun hji => hmem (hji ▸ hj))
        · simp only [hC] at h
          obtain ⟨h1, h2, h3⟩ := triple_eq h
          subst h2
          subst h3
          exact ⟨⟨[id], rfl⟩, Evolves.refl s, fun j _ => rfl, fun i hi => by
            rw [← h1] at hi; exact (downcast_ok hi).1 ▸ (downcast_ok hi).2⟩

/-! Helper lemmas for key selection and the singleton cache. -/

theorem resolveId_typeSpec {m : BeanMap} {ty : TypeName}
    (h : mapContains m (Identifier.TypeSpec ty) = true) :
    resolveId m ty none = .ok (Identifier.TypeSpec ty) := by
  simp [resolveId, h]

theorem resolveId_unnamed {m : BeanMap} {ty : TypeName}
    (h1 : mapContains m (Identifier.TypeSpec ty) = false)
    (h2 : mapContains m (Identifier.Unnamed ty) = true) :
    resolveId m ty none = .ok (Identifier.Unnamed ty) := by
  simp [resolveId, h1, h2]

theorem resolveId_named (m : BeanMap) (ty : TypeName) (n : String) :
    resolveId m ty (some n) = .ok (Identifier.Named n) := rfl

theorem resolveId_not_found {m : BeanMap} {ty : TypeName}
    (h1 : mapContains m (Identifier.TypeSpec ty) = false)
    (h2 : mapContains m (Identifier.Unnamed ty) = false) :
    resolveId m ty none =
      .error ("Bean not found: " ++ (Identifier.TypeSpec ty).display) := by
  simp [resolveId, h1, h2]

theorem mapContains_of_get {m : BeanMap} {id : Identifier} {d : BeanDefinition}
    (h : mapGet m id = some d) : mapContains m id = true := by
  simp [mapContains, h]

theorem singletonCached_none_elim {m : BeanMap} {id : Identifier}
    {d : BeanDefinition} (hC : singletonCached m id = none)
    (hD : mapGet m id = some d) (hS : d.scope = Scope.Singleton) :
    d.inst = none := by
  rcases hoin : d.inst with _ | x
  · rfl
  · rw [singletonCached_eq_some hD hS hoin] at hC
    exact absurd hC (by simp)

theorem defn_update_self {d : BeanDefinition} {i : Instance}
    (h : d.inst = some i) : { d with inst := some i } = d := by
  obtain ⟨fac, sc, oin⟩ := d
  cases oin with
  | some x =>
    have hx : some x = some i := h
    injection hx with hx
    rw [hx]
  | none => exact absurd h (by simp)

/-- Case analysis of a successful resolution: either the singleton fast
path returned the already-cached instance and nothing changed (the entered
identifier is left on the context, as in the source), or the construct
path ran the factory, so the returned instance is the freshly allocated
last instance of the call, published for singletons and not stored for
prototypes. -/
theorem gwc_success (fuel : Nat) (s : BeanContainer) (ty : TypeName)
    (name : Option String) (ctx : CreationContext) (id : Identifier)
    (d : BeanDefinition) (i : Instance) (s' : BeanContainer)
    (ctx' : CreationContext)
    (hI : resolveId s.beans ty name = .ok id)
    (hD : mapGet s.beans id = some d)
    (h : get_with_context fuel s ty name ctx = (.ok i, s', ctx')) :
    i.ty = ty ∧
    ((d.scope = Scope.Singleton ∧ d.inst = some i ∧ s' = s ∧ ctx' = ctx ++ [id]) ∨
     (singletonCached s.beans id = none ∧
       s.nextAddr ≤ i.addr ∧ i.addr + 1 = s'.nextAddr ∧
       (d.scope = Scope.Singleton →
          mapGet s'.beans id = some { d with inst := some i }) ∧
       (d.scope = Scope.Prototype → mapGet s'.beans id = some d))) := by
  cases fuel with
  | zero =>
    rw [get_with_context_zero] at h
    exact absurd (triple_eq h).1 (by simp)
  | succ fuel =>
    rw [get_with_context_succ] at h
    simp only [hI] at h
    rcases hE : CreationContext.enter ctx id with e | ctx1
    · simp only [hE] at h
      exact absurd (triple_eq h).1 (by simp)
    · simp only [hE] at h
      obtain ⟨hctx1, hlen, hmem⟩ := enter_ok hE
      subst hctx1
      rcases hC : singletonCached s.beans id with _ | inst
      · -- construct path
        simp only [hC] at h
        rcases hK : construct (get_with_context fuel) s ty id (ctx ++ [id])
          with ⟨r2, s2, ctx2⟩
        simp only [hK] at h
        obtain ⟨h1, h2, h3⟩ := triple_eq h
        subst h2
        obtain ⟨fac, sc, oin⟩ := d
        rcases hF : runFactory (get_with_context fuel) s fac (ctx ++ [id])
          with ⟨rf, sB, ctxB⟩
        obtain ⟨hextF, hevF, hfrF, hokF⟩ :=
          runFactory_spec _ (get_with_context_stepOK fuel) s fac (ctx ++ [id])
            rf sB ctxB hF
        have hsB : mapGet sB.beans id = mapGet s.beans id :=
          hfrF id (by simp)
        cases sc with
        | Singleton =>
          cases oin with
          | some x =>
            rw [singletonCached_eq_some hD rfl rfl] at hC
            exact absurd hC (by simp)
          | none =>
            have hred : construct (get_with_context fuel) s ty id (ctx ++ [id]) =
                constructRun (get_with_context fuel) s ty id fac
                  Scope.Singleton (ctx ++ [id]) := by
              simp [construct, hD]
            rw [hred] at hK
            rcases rf with e | new
            · have hcr : constructRun (get_with_context fuel) s ty id fac
                  Scope.Singleton (ctx ++ [id]) = (.error e, sB, ctxB) := by
                simp [constructRun, hF]
              rw [hcr] at hK
              obtain ⟨hk1, _, _⟩ := triple_eq hK
              rw [← hk1] at h1
              exact absurd h1 (by simp)
            · have hcr : constructRun (get_with_context fuel) s ty id fac
                  Scope.Singleton (ctx ++ [id]) =
                  (downcast new ty,
                    { sB with beans := publish sB.beans id new }, ctxB) := by
                simp [constructRun, hF]
              rw [hcr] at hK
              obtain ⟨hk1, hk2, hk3⟩ := triple_eq hK
              have hdc : downcast new ty = .ok i := hk1.trans h1
              obtain ⟨hie, htyi⟩ := downcast_ok hdc
              subst hie
              obtain ⟨_, hlo, hhi⟩ := hokF i rfl
              refine ⟨htyi, Or.inr ⟨rfl, hlo, ?_, ?_, ?_⟩⟩
              · rw [← hk2]
                exact hhi
              · intro _
                rw [← hk2]
                show mapGet (publish sB.beans id i) id = some _
                rw [publish_get_self_empty (hsB.trans hD) rfl]
              · intro hp
                exact absurd hp (by simp)
        | Prototype =>
          have hred : construct (get_with_context fuel) s ty id (ctx ++ [id]) =
              constructRun (get_with_context fuel) s ty id fac
                Scope.Prototype (ctx ++ [id]) := by
            cases oin with
            | none => simp [construct, hD]
            | some x => simp [construct, hD]
          rw [hred] at hK
          rcases rf with e | new
          · have hcr : constructRun (get_with_context fuel) s ty id fac
                Scope.Prototype (ctx ++ [id]) = (.error e, sB, ctxB) := by
              simp [constructRun, hF]
            rw [hcr] at hK
            obtain ⟨hk1, _, _⟩ := triple_eq hK
            rw [← hk1] at h1
            exact absurd h1 (by simp)
          · have hcr : constructRun (get_with_context fuel) s ty id fac
                Scope.Prototype (ctx ++ [id]) = (downcast new ty, sB, ctxB) := by
              simp [constructRun, hF]
            rw [hcr] at hK
            obtain ⟨hk1, hk2, hk3⟩ := triple_eq hK
            have hdc : downcast new ty = .ok i := hk1.trans h1
            obtain ⟨hie, htyi⟩ := downcast_ok hdc
            subst hie
            obtain ⟨_, hlo, hhi⟩ := hokF i rfl
            refine ⟨htyi, Or.inr ⟨rfl, hlo, ?_, ?_, ?_⟩⟩
            · rw [← hk2]
              exact hhi
            · intro hp
              exact absurd hp (by simp)
            · intro _
              rw [← hk2]
              exact hsB.trans hD
      · -- singleton cache hit
        simp only [hC] at h
        obtain ⟨h1, h2, h3⟩ := triple_eq h
        obtain ⟨hie, htyi⟩ := downcast_ok h1
        subst hie
        obtain ⟨d', hD', hS', hin'⟩ := singletonCached_some hC
        rw [hD] at hD'
        injection hD' with hD'
        subst hD'
        exact ⟨htyi, Or.inl ⟨hS', hin', h2.symm, h3.symm⟩⟩

/-- The singleton fast path itself: when the resolved definition already
caches an instance of the requested type, the call returns it and changes
nothing (except for the leaked context entry). -/
theorem gwc_cache_hit (fuel : Nat) (s : BeanContainer) (ty : TypeName)
    (name : Option String) (ctx : CreationContext) (id : Identifier)
    (d : BeanDefinition) (i : Instance)
    (hI : resolveId s.beans ty name = .ok id)
    (hD : mapGet s.beans id = some d) (hS : d.scope = Scope.Singleton)
    (hinst : d.inst = some i) (hty : i.ty = ty)
    (hlen : ctx.length ≤ 100) (hmem : id ∉ ctx) :
    get_with_context (fuel + 1) s ty name ctx = (.ok i, s, ctx ++ [id]) := by
  rw [get_with_context_succ]
  simp only [hI, enter_ok_of hlen hmem, singletonCached_eq_some hD hS hinst,
    downcast_self hty]

deriving instance DecidableEq for Except

/-! Claim C1. -/

/-- C1: for every type registered via register (a TypeSpec definition), a
successful get of a Singleton leaves the instance cached, every further
get returns the pointer-identical instance without changing the state, a
get that finds the cache already populated returns exactly the cached
instance and overwrites nothing; for a Prototype the registry stores no
instance, the returned instance is freshly allocated during the call
(its address is at or above the allocation watermark, so it differs from
every previously returned instance), and a second get returns an
identity-distinct fresh instance again. -/
theorem claim_c1 (s : BeanContainer) (ty : TypeName) (d : BeanDefinition)
    (fuel : Nat) (i1 : Instance) (s1 : BeanContainer)
    (hD : mapGet s.beans (Identifier.TypeSpec ty) = some d)
    (hget : try_get fuel s ty none = (.ok i1, s1)) :
    (d.scope = Scope.Singleton →
      (∀ fuel2, try_get (fuel2 + 1) s1 ty none = (.ok i1, s1)) ∧
      mapGet s1.beans (Identifier.TypeSpec ty) = some { d with inst := some i1 } ∧
      (∀ x, d.inst = some x → i1 = x ∧ s1 = s)) ∧
    (d.scope = Scope.Prototype → d.inst = none →
      mapGet s1.beans (Identifier.TypeSpec ty) = some d ∧
      s.nextAddr ≤ i1.addr ∧ i1.addr + 1 = s1.nextAddr ∧
      (∀ fuel2 i2 s2, try_get fuel2 s1 ty none = (.ok i2, s2) →
        i1 ≠ i2 ∧ s1.nextAddr ≤ i2.addr)) := by
  have hI : resolveId s.beans ty none = .ok (Identifier.TypeSpec ty) :=
    resolveId_typeSpec (mapContains_of_get hD)
  rcases hG : get_with_context fuel s ty none [] with ⟨r, s1', ctxF⟩
  have htg : try_get fuel s ty none = (r, s1') := by simp [try_get, hG]
  rw [htg] at hget
  have hr : r = .ok i1 := congrArg Prod.fst hget
  have hs : s1 = s1' := (congrArg Prod.snd hget).symm
  subst hr
  subst hs
  obtain ⟨hty1, hcase⟩ := gwc_success fuel s ty none [] (Identifier.TypeSpec ty)
    d i1 s1 ctxF hI hD hG
  constructor
  · intro hS
    have hcached : mapGet s1.beans (Identifier.TypeSpec ty) =
        some { d with inst := some i1 } := by
      rcases hcase with ⟨_, hin, hs', _⟩ | ⟨_, _, _, hSing, _⟩
      · rw [hs', hD, defn_update_self hin]
      · exact hSing hS
    refine ⟨?_, hcached, ?_⟩
    · intro fuel2
      have hI1 : resolveId s1.beans ty none = .ok (Identifier.TypeSpec ty) :=
        resolveId_typeSpec (mapContains_of_get hcached)
      have hh := gwc_cache_hit fuel2 s1 ty none [] (Identifier.TypeSpec ty)
        { d with inst := some i1 } i1 hI1 hcached hS rfl hty1 (by simp) (by simp)
      simp [try_get, hh]
    · intro x hx
      rcases hcase with ⟨_, hin, hs', _⟩ | ⟨hC, _, _, _, _⟩
      · rw [hx] at hin
        injection hin with hin
        exact ⟨hin.symm, hs'⟩
      · have hnone := singletonCached_none_elim hC hD hS
        rw [hx] at hnone
        exact absurd hnone (by simp)
  · intro hP hin
    rcases hcase with ⟨hS, _, _, _⟩ | ⟨_, hlo, hhi, _, hProt⟩
    · exact absurd (hS.symm.trans hP) (by simp)
    · have hD1 := hProt hP
      refine ⟨hD1, hlo, hhi, ?_⟩
      intro fuel2 i2 s2 hget2
      have hI1 : resolveId s1.beans ty none = .ok (Identifier.TypeSpec ty) :=
        resolveId_typeSpec (mapContains_of_get hD1)
      rcases hG2 : get_with_context fuel2 s1 ty none [] with ⟨r2, s2', ctxF2⟩
      have htg2 : try_get fuel2 s1 ty none = (r2, s2') := by simp [try_get, hG2]
      rw [htg2] at hget2
      have hr2 : r2 = .ok i2 := congrArg Prod.fst hget2
      have hs2 : s2 = s2' := (congrArg Prod.snd hget2).symm
      subst hr2
      subst hs2
      obtain ⟨hty2, hcase2⟩ := gwc_success fuel2 s1 ty none []
        (Identifier.TypeSpec ty) d i2 s2 ctxF2 hI1 hD1 hG2
      rcases hcase2 with ⟨hS2, _, _, _⟩ | ⟨_, hlo2, _, _, _⟩
      · exact absurd (hS2.symm.trans hP) (by simp)
      · refine ⟨?_, hlo2⟩
        intro heq
        rw [heq] at hhi
        omega

/-- Container with a dependency-free Singleton registered under the type
name S, and the container after one successful get of it. -/
def c1w : BeanContainer := (register BeanContainer.new "S" Scope.Singleton [] none).2

def c1w_s1 : BeanContainer := (try_get 2 c1w "S" none).2

/-- Witness for C1 at a concrete container: after the first get of the
singleton S, a second get returns the pointer-identical instance and
leaves the state unchanged. -/
theorem claim_c1_witness :
    try_get 3 c1w_s1 "S" none = (.ok ⟨0, "S"⟩, c1w_s1) :=
  ((claim_c1 c1w "S" ⟨⟨[], none, "S"⟩, Scope.Singleton, none⟩ 2 ⟨0, "S"⟩ c1w_s1
    (by decide) (by decide)).1 rfl).1 2

/-! Claim C2. -/

/-- Container with B a dependency-free Singleton and A a Singleton whose
factory requests B twice - an acyclic configuration. -/
def c2reg : BeanContainer :=
  (register ((register BeanContainer.new "B" Scope.Singleton [] none).2)
    "A" Scope.Singleton [("B", none), ("B", none)] none).2

/-- The same container after one successful top-level get of B, which
caches B's singleton instance. -/
def c2s1 : BeanContainer := (try_get 5 c2reg "B" none).2

/-- C2 fails on the code: the singleton cache-hit fast path in
get_with_context returns without calling context.exit (early return in
bean.rs lines 263-274), so a nested resolution that hits the cache leaves
its identifier on the creation-context stack. Evaluating the code shows
that resolving the cached B from a context holding only A returns with B
leaked onto the stack, and consequently the acyclic configuration A with
dependencies B, B fails with a spurious CircularDependency error. -/
theorem claim_c2 :
    (try_get 5 c2reg "B" none).1 = .ok ⟨0, "B"⟩ ∧
    get_with_context 5 c2s1 "B" none [Identifier.TypeSpec "A"] =
      (.ok ⟨0, "B"⟩, c2s1, [Identifier.TypeSpec "A", Identifier.TypeSpec "B"]) ∧
    (try_get 5 c2s1 "A" none).1 =
      .error "Circular dependency detected: Bean(A) -> Bean(B) -> Bean(B)" := by
  refine ⟨by decide, by decide, by decide⟩

/-! Claims C3 and C4. -/

set_option maxRecDepth 40000

/-- Creation context holding one hundred distinct identifiers. -/
def ctx100 : CreationContext :=
  (List.range 100).map (fun k => Identifier.Named (Nat.repr k))

/-- Creation context holding one hundred and one identifiers, the first of
which is the named bean x. -/
def deepCtx : CreationContext := Identifier.Named "x" :: ctx100

/-- C3 (amended): a resolution that requests an identifier already on the
creation-context stack fails, before any cache lookup or construction and
for every container state (in particular when the requested bean already
holds a cached instance), with the CircularDependency error whose message
is the stack joined in entry order followed by the repeated identifier -
provided the stack holds at most 100 identifiers, since a deeper stack
trips the depth check first. -/
theorem claim_c3 (fuel : Nat) (s : BeanContainer) (ty : TypeName)
    (name : Option String) (ctx : CreationContext) (id : Identifier)
    (hI : resolveId s.beans ty name = .ok id)
    (hmem : id ∈ ctx) (hlen : ctx.length ≤ 100) :
    get_with_context (fuel + 1) s ty name ctx =
      (.error ("Circular dependency detected: " ++
        CreationContext.get_path ctx ++ " -> " ++ id.display), s, ctx) := by
  rw [get_with_context_succ]
  simp only [hI, enter_err_mem hlen hmem]

/-- Counterexample to C3 as stated: when the creation stack already holds
101 identifiers (which a chain of 101 nested resolutions can produce) and
the requested identifier is among them, the call fails with
DependencyTooDeep, not with the CircularDependency error the claim
promises, because the depth check precedes the cycle check in
CreationContext::enter. -/
theorem claim_c3_counterexample :
    Identifier.Named "x" ∈ deepCtx ∧ deepCtx.length = 101 ∧
    get_with_context 1 BeanContainer.new "T" (some "x") deepCtx =
      (.error "Dependency chain too deep (>100)", BeanContainer.new, deepCtx) ∧
    "Dependency chain too deep (>100)" ≠
      ("Circular dependency detected: " ++ CreationContext.get_path deepCtx ++
        " -> " ++ (Identifier.Named "x").display) := by
  refine ⟨by decide, by decide, by decide, by decide⟩

/-- Witness for C3 at a concrete input: requesting the singleton S, whose
instance is already cached, from a stack that already contains S fails
with the CircularDependency chain message, cache notwithstanding. -/
theorem claim_c3_witness :
    get_with_context 5 c1w_s1 "S" none [Identifier.TypeSpec "S"] =
      (.error ("Circular dependency detected: " ++
        CreationContext.get_path [Identifier.TypeSpec "S"] ++ " -> " ++
        (Identifier.TypeSpec "S").display), c1w_s1, [Identifier.TypeSpec "S"]) :=
  claim_c3 4 c1w_s1 "S" none [Identifier.TypeSpec "S"] (Identifier.TypeSpec "S")
    (by decide) (by decide) (by decide)

/-- C4 (amended): entering a new identifier fails with DependencyTooDeep
exactly when the stack already holds more than 100 identifiers, so the
stack can grow to 101 entries and the error reaches the caller of any
resolution attempted at that depth; equivalently, the bound at which a
chain of nested resolutions is cut off is 101, not 100. -/
theorem claim_c4 :
    (∀ ctx : CreationContext, ∀ id : Identifier, ctx.length > 100 →
      CreationContext.enter ctx id = .error "Dependency chain too deep (>100)") ∧
    (∀ ctx : CreationContext, ∀ id : Identifier, ∀ c : CreationContext,
      CreationContext.enter ctx id = .ok c → c.length ≤ 101) ∧
    (∀ fuel : Nat, ∀ s : BeanContainer, ∀ ty : TypeName,
      ∀ name : Option String, ∀ ctx : CreationContext, ∀ id : Identifier,
      resolveId s.beans ty name = .ok id → ctx.length > 100 →
      get_with_context (fuel + 1) s ty name ctx =
        (.error "Dependency chain too deep (>100)", s, ctx)) := by
  refine ⟨fun ctx id h => enter_err_deep h, ?_, ?_⟩
  · intro ctx id c h
    obtain ⟨hc, hlen, _⟩ := enter_ok h
    subst hc
    rw [List.length_append]
    simp only [List.length_singleton]
    omega
  · intro fuel s ty name ctx id hI hdeep
    rw [get_with_context_succ]
    simp only [hI, enter_err_deep hdeep]

/-- Counterexample to C4 as stated: entering a fresh identifier on a stack
of exactly 100 identifiers succeeds and produces a stack of 101 entries,
although the claim demands a DependencyTooDeep failure whenever the stack
would exceed 100. -/
theorem claim_c4_counterexample :
    ctx100.length = 100 ∧
    CreationContext.enter ctx100 (Identifier.Named "x") =
      .ok (ctx100 ++ [Identifier.Named "x"]) ∧
    (ctx100 ++ [Identifier.Named "x"]).length = 101 := by
  refine ⟨by decide, by decide, by decide⟩

/-- Witness for C4 at a concrete input: entering anything on the
101-element stack fails with DependencyTooDeep, and so does a resolution
attempted at that depth. -/
theorem claim_c4_witness :
    CreationContext.enter deepCtx (Identifier.Named "y") =
      .error "Dependency chain too deep (>100)" ∧
    get_with_context 3 c1w "S" none deepCtx =
      (.error "Dependency chain too deep (>100)", c1w, deepCtx) :=
  ⟨claim_c4.1 deepCtx (Identifier.Named "y") (by decide),
    claim_c4.2.2 2 c1w "S" none deepCtx (Identifier.TypeSpec "S")
      (by decide) (by decide)⟩

/-! Claim C7. -/

/-- C7 fails on the code: the publish-and-return step stores the new
instance only when the cache is empty (first writer wins), but always
hands the locally constructed instance back to the caller - also when a
racing resolver already published a different instance, in which case the
published cache value and the returned value disagree, so the losing
thread does not return the published singleton. -/
theorem claim_c7 :
    publishStep (some ⟨0, "T"⟩) ⟨1, "T"⟩ = (some ⟨0, "T"⟩, ⟨1, "T"⟩) ∧
    (⟨1, "T"⟩ : Instance) ≠ ⟨0, "T"⟩ := by
  refine ⟨by decide, by decide⟩

/-! Claim C6. -/

/-- C6 (amended): resolution errors are returned as result values at the
try_get level (the public get and get_named unwrap the result and panic on
error, modeled as none); a get that fails with NotFound - unnamed with
neither a TypeSpec nor an Unnamed entry, or named with no Named entry -
returns the not-found error with the container exactly as it was; and no
get, failed or not, ever changes the number of stored definitions. -/
theorem claim_c6 :
    (∀ fuel : Nat, ∀ s : BeanContainer, ∀ ty : TypeName,
      mapContains s.beans (Identifier.TypeSpec ty) = false →
      mapContains s.beans (Identifier.Unnamed ty) = false →
      try_get (fuel + 1) s ty none =
        (.error ("Bean not found: " ++ (Identifier.TypeSpec ty).display), s)) ∧
    (∀ fuel : Nat, ∀ s : BeanContainer, ∀ ty : TypeName, ∀ n : String,
      mapGet s.beans (Identifier.Named n) = none →
      try_get (fuel + 1) s ty (some n) =
        (.error ("Bean not found: " ++ (Identifier.Named n).display), s)) ∧
    (∀ fuel : Nat, ∀ s : BeanContainer, ∀ ty : TypeName, ∀ name : Option String,
      ∀ r : Except String Instance, ∀ s' : BeanContainer,
      try_get fuel s ty name = (r, s') →
      BeanContainer.len s' = BeanContainer.len s) ∧
    (∀ fuel : Nat, ∀ s : BeanContainer, ∀ ty : TypeName, ∀ e : String,
      ∀ s' : BeanContainer, try_get fuel s ty none = (.error e, s') →
      BeanContainer.get fuel s ty = none) := by
  refine ⟨?_, ?_, ?_, ?_⟩
  · intro fuel s ty hT hU
    have h1 : get_with_context (fuel + 1) s ty none [] =
        (.error ("Bean not found: " ++ (Identifier.TypeSpec ty).display), s, []) := by
      rw [get_with_context_succ]
      simp only [resolveId_not_found hT hU]
    simp [try_get, h1]
  · intro fuel s ty n hN
    have hcon : construct (get_with_context fuel) s ty (Identifier.Named n)
        ([] ++ [Identifier.Named n]) =
        (.error ("Bean not found: " ++ (Identifier.Named n).display), s,
          [] ++ [Identifier.Named n]) := by
      simp [construct, hN]
    have h1 : get_with_context (fuel + 1) s ty (some n) [] =
        (.error ("Bean not found: " ++ (Identifier.Named n).display), s, []) := by
      rw [get_with_context_succ]
      simp only [resolveId_named,
        @enter_ok_of [] (Identifier.Named n) (by simp) (by simp),
        singletonCached_none_of_absent hN, hcon]
      simp [CreationContext.exit]
    simp [try_get, h1]
  · intro fuel s ty name r s' h
    rcases hG : get_with_context fuel s ty name [] with ⟨r0, s0, ctx0⟩
    have htg : try_get fuel s ty name = (r0, s0) := by simp [try_get, hG]
    rw [htg] at h
    have hs : s0 = s' := congrArg Prod.snd h
    subst hs
    exact ((get_with_context_stepOK fuel) s ty name [] r0 s0 ctx0 hG).2.1.len_eq
  · intro fuel s ty e s' h
    simp [BeanContainer.get, h]

/-- Container with B a dependency-free Singleton and A a Singleton whose
factory resolves B and then fails with the user error boom. -/
def c6s : BeanContainer :=
  (register ((register BeanContainer.new "B" Scope.Singleton [] none).2)
    "A" Scope.Singleton [("B", none)] (some "boom")).2

/-- Counterexample to C6 as stated: the public get on an empty container
panics (aborts the process, modeled as none) instead of returning the
NotFound error as a result value, and a get whose factory fails after
resolving a singleton dependency leaves the definition map changed - the
dependency's cache is now populated. -/
theorem claim_c6_counterexample :
    BeanContainer.get 5 BeanContainer.new "A" = none ∧
    (try_get 5 c6s "A" none).1 = .error "boom" ∧
    mapGet (try_get 5 c6s "A" none).2.beans (Identifier.TypeSpec "B") ≠
      mapGet c6s.beans (Identifier.TypeSpec "B") := by
  refine ⟨by decide, by decide, by decide⟩

/-- Witness for C6 at a concrete input: the unnamed NotFound case on the
empty container, with the state unchanged and the panic of the public
get. -/
theorem claim_c6_witness :
    try_get 3 BeanContainer.new "A" none =
      (.error ("Bean not found: " ++ (Identifier.TypeSpec "A").display),
        BeanContainer.new) ∧
    BeanContainer.get 3 BeanContainer.new "A" = none :=
  ⟨claim_c6.1 2 BeanContainer.new "A" (by decide) (by decide),
    claim_c6.2.2.2 3 BeanContainer.new "A" _ BeanContainer.new
      (claim_c6.1 2 BeanContainer.new "A" (by decide) (by decide))⟩

/-! Claim C8. -/

theorem mapContains_insert_ne {m : BeanMap} {k : Identifier}
    {d : BeanDefinition} {j : Identifier} (h : k ≠ j) :
    mapContains (mapInsert m k d) j = mapContains m j := by
  simp [mapContains, mapGet_insert_ne m k d j h]

theorem mapContains_remove_ne {m : BeanMap} {k j : Identifier} (h : k ≠ j) :
    mapContains (mapRemove m k) j = mapContains m j := by
  simp [mapContains, mapGet_remove_ne m k j h]

theorem mapContains_eq_of_keys_eq {m m' : BeanMap}
    (h : m'.map Prod.fst = m.map Prod.fst) (id : Identifier) :
    mapContains m' id = mapContains m id := by
  rcases hg : mapGet m id with _ | d
  · have hg' : mapGet m' id = none := by
      rw [mapGet_eq_none_iff, h, ← mapGet_eq_none_iff]
      exact hg
    simp [mapContains, hg, hg']
  · have hne : mapGet m' id ≠ none := by
      intro hnone
      rw [mapGet_eq_none_iff, h, ← mapGet_eq_none_iff] at hnone
      rw [hg] at hnone
      exact absurd hnone (by simp)
    rcases hg' : mapGet m' id with _ | d'
    · exact absurd hg' hne
    · simp [mapContains, hg, hg']

/-- Reduction of register_named when the name is free and the type has no
TypeSpec and no Unnamed entry yet: the fallback is also inserted. -/
theorem register_named_fallback {s : BeanContainer} {n : String}
    {ty : TypeName} {scope : Scope} {deps : List (TypeName × Option String)}
    {fails : Option String}
    (hc : mapContains s.beans (Identifier.Named n) = false)
    (hts : mapContains s.beans (Identifier.TypeSpec ty) = false)
    (hun : mapContains s.beans (Identifier.Unnamed ty) = false) :
    register_named s n ty scope deps fails =
      (.ok (), { s with beans := mapInsert (mapInsert s.beans (Identifier.Named n) ⟨⟨deps, fails, ty⟩, scope, none⟩) (Identifier.Unnamed ty) ⟨⟨deps, fails, ty⟩, scope, none⟩ }) := by
  have h1 : mapContains
      (mapInsert s.beans (Identifier.Named n) ⟨⟨deps, fails, ty⟩, scope, none⟩)
      (Identifier.TypeSpec ty) = false := by
    rw [mapContains_insert_ne (by simp)]
    exact hts
  have h2 : mapContains
      (mapInsert s.beans (Identifier.Named n) ⟨⟨deps, fails, ty⟩, scope, none⟩)
      (Identifier.Unnamed ty) = false := by
    rw [mapContains_insert_ne (by simp)]
    exact hun
  simp [register_named, hc, h1, h2]

/-- Reduction of register_named when the name is free but a TypeSpec or
Unnamed entry already exists for the type: only the Named entry is
inserted. -/
theorem register_named_no_fallback {s : BeanContainer} {n : String}
    {ty : TypeName} {scope : Scope} {deps : List (TypeName × Option String)}
    {fails : Option String}
    (hc : mapContains s.beans (Identifier.Named n) = false)
    (hcond : mapContains s.beans (Identifier.TypeSpec ty) = true ∨
      mapContains s.beans (Identifier.Unnamed ty) = true) :
    register_named s n ty scope deps fails =
      (.ok (), { s with beans := mapInsert s.beans (Identifier.Named n) ⟨⟨deps, fails, ty⟩, scope, none⟩ }) := by
  rcases hcond with h1 | h1
  · have h1' : mapContains
        (mapInsert s.beans (Identifier.Named n) ⟨⟨deps, fails, ty⟩, scope, none⟩)
        (Identifier.TypeSpec ty) = true := by
      rw [mapContains_insert_ne (by simp)]
      exact h1
    simp [register_named, hc, h1']
  · have h1' : mapContains
        (mapInsert s.beans (Identifier.Named n) ⟨⟨deps, fails, ty⟩, scope, none⟩)
        (Identifier.Unnamed ty) = true := by
      rw [mapContains_insert_ne (by simp)]
      exact h1
    simp [register_named, hc, h1']

/-- Container states reachable from a fresh container through the public
interface; contains, len and is_empty are read-only and produce no new
state. -/
inductive Reachable : BeanContainer → Prop where
  | base : Reachable BeanContainer.new
  | step_register (s : BeanContainer) (ty : TypeName) (scope : Scope)
      (deps : List (TypeName × Option String)) (fails : Option String) :
      Reachable s → Reachable (register s ty scope deps fails).2
  | step_register_named (s : BeanContainer) (n : String) (ty : TypeName)
      (scope : Scope) (deps : List (TypeName × Option String))
      (fails : Option String) :
      Reachable s → Reachable (register_named s n ty scope deps fails).2
  | step_get (s : BeanContainer) (fuel : Nat) (ty : TypeName)
      (name : Option String) :
      Reachable s → Reachable (try_get fuel s ty name).2

/-- Key-set invariant maintained by every operation: no duplicate keys,
and for each type at most one of the TypeSpec and Unnamed entries. -/
def GoodKeys (s : BeanContainer) : Prop :=
  (s.beans.map Prod.fst).Nodup ∧
  ∀ t : TypeName, mapContains s.beans (Identifier.TypeSpec t) = false ∨
    mapContains s.beans (Identifier.Unnamed t) = false

theorem reachable_goodKeys : ∀ s : BeanContainer, Reachable s → GoodKeys s := by
  intro s hs
  induction hs with
  | base => exact ⟨by simp [BeanContainer.new], fun t => Or.inl rfl⟩
  | step_register s ty scope deps fails _ ih =>
    cases hc : mapContains s.beans (Identifier.TypeSpec ty) with
    | true =>
      have hred : (register s ty scope deps fails).2 = s := by
        simp [register, hc]
      rw [hred]
      exact ih
    | false =>
      have hred : (register s ty scope deps fails).2 =
          { s with beans := mapInsert (mapRemove s.beans (Identifier.Unnamed ty)) (Identifier.TypeSpec ty) ⟨⟨deps, fails, ty⟩, scope, none⟩ } := by
        simp [register, hc]
      rw [hred]
      refine ⟨keys_nodup_insert _ _ _ (keys_nodup_remove _ _ ih.1), ?_⟩
      intro t
      by_cases ht : t = ty
      · subst ht
        refine Or.inr ?_
        show mapContains _ (Identifier.Unnamed t) = false
        rw [mapContains_insert_ne (by simp)]
        have h1 : mapGet (mapRemove s.beans (Identifier.Unnamed t))
            (Identifier.Unnamed t) = none := mapGet_remove_self _ _ ih.1
        simp [mapContains, h1]
      · have hne1 : Identifier.TypeSpec ty ≠ Identifier.TypeSpec t := by
          intro hh
          injection hh with hh
          exact ht hh.symm
        have hne2 : Identifier.Unnamed ty ≠ Identifier.Unnamed t := by
          intro hh
          injection hh with hh
          exact ht hh.symm
        rcases ih.2 t with h | h
        · refine Or.inl ?_
          rw [mapContains_insert_ne hne1, mapContains_remove_ne (by simp)]
          exact h
        · refine Or.inr ?_
          rw [mapContains_insert_ne (by simp), mapContains_remove_ne hne2]
          exact h
  | step_register_named s n ty scope deps fails _ ih =>
    cases hc : mapContains s.beans (Identifier.Named n) with
    | true =>
      have hred : (register_named s n ty scope deps fails).2 = s := by
        simp [register_named, hc]
      rw [hred]
      exact ih
    | false =>
      cases h1 : mapContains s.beans (Identifier.TypeSpec ty) with
      | true =>
        have hred := @register_named_no_fallback s n ty scope deps fails hc (Or.inl h1)
        rw [congrArg Prod.snd hred]
        refine ⟨keys_nodup_insert _ _ _ ih.1, fun t => ?_⟩
        rcases ih.2 t with h | h
        · exact Or.inl (by rw [mapContains_insert_ne (by simp)]; exact h)
        · exact Or.inr (by rw [mapContains_insert_ne (by simp)]; exact h)
      | false =>
        cases h2 : mapContains s.beans (Identifier.Unnamed ty) with
        | true =>
          have hred := @register_named_no_fallback s n ty scope deps fails hc (Or.inr h2)
          rw [congrArg Prod.snd hred]
          refine ⟨keys_nodup_insert _ _ _ ih.1, fun t => ?_⟩
          rcases ih.2 t with h | h
          · exact Or.inl (by rw [mapContains_insert_ne (by simp)]; exact h)
          · exact Or.inr (by rw [mapContains_insert_ne (by simp)]; exact h)
        | false =>
          have hred := @register_named_fallback s n ty scope deps fails hc h1 h2
          rw [congrArg Prod.snd hred]
          refine ⟨keys_nodup_insert _ _ _ (keys_nodup_insert _ _ _ ih.1),
            fun t => ?_⟩
          by_cases ht : t = ty
          · subst ht
            refine Or.inl ?_
            rw [mapContains_insert_ne (by simp), mapContains_insert_ne (by simp)]
            exact h1
          · have hne2 : Identifier.Unnamed ty ≠ Identifier.Unnamed t := by
              intro hh
              injection hh with hh
              exact ht hh.symm
            rcases ih.2 t with h | h
            · refine Or.inl ?_
              rw [mapContains_insert_ne (by simp),
                mapContains_insert_ne (by simp)]
              exact h
            · refine Or.inr ?_
              rw [mapContains_insert_ne hne2, mapContains_insert_ne (by simp)]
              exact h
  | step_get s fuel ty name _ ih =>
    rcases hG : get_with_context fuel s ty name [] with ⟨r0, s0, ctx0⟩
    have hred : (try_get fuel s ty name).2 = s0 := by
      simp [try_get, hG]
    rw [hred]
    have hkeys :=
      ((get_with_context_stepOK fuel) s ty name [] r0 s0 ctx0 hG).2.1.keys_eq
    refine ⟨by rw [hkeys]; exact ih.1, fun t => ?_⟩
    rcases ih.2 t with h | h
    · exact Or.inl (by rw [mapContains_eq_of_keys_eq hkeys]; exact h)
    · exact Or.inr (by rw [mapContains_eq_of_keys_eq hkeys]; exact h)

/-- C8: in every container state reachable through the public interface,
no type has both a TypeSpec and an Unnamed entry in the definition map. -/
theorem claim_c8 (s : BeanContainer) (hs : Reachable s) (t : TypeName) :
    ¬(mapContains s.beans (Identifier.TypeSpec t) = true ∧
      mapContains s.beans (Identifier.Unnamed t) = true) := by
  rcases (reachable_goodKeys s hs).2 t with h | h <;> simp [h]

/-- Concrete reachable container: a named registration for T followed by
an explicit type-default registration for T. -/
def c8w : BeanContainer :=
  (register ((register_named BeanContainer.new "n" "T" Scope.Singleton [] none).2)
    "T" Scope.Singleton [] none).2

/-- Witness for C8 at a concrete reachable state. -/
theorem claim_c8_witness :
    ¬(mapContains c8w.beans (Identifier.TypeSpec "T") = true ∧
      mapContains c8w.beans (Identifier.Unnamed "T") = true) :=
  claim_c8 c8w
    (Reachable.step_register _ "T" Scope.Singleton [] none
      (Reachable.step_register_named _ "n" "T" Scope.Singleton [] none
        Reachable.base)) "T"

/-! Claim C9. -/

theorem mapGet_eq_none_of_contains_false {m : BeanMap} {id : Identifier}
    (h : mapContains m id = false) : mapGet m id = none := by
  rcases hg : mapGet m id with _ | d
  · rfl
  · rw [mapContains, hg] at h
    exact absurd h (by simp)

/-- C9: registering a type-default fails with AlreadyRegistered and leaves
the container untouched when a TypeSpec entry for the type exists;
otherwise it removes any Unnamed fallback for the type and inserts the
TypeSpec definition, after which unnamed resolution selects the TypeSpec
entry and a successful get returns a fresh instance of the new
registration (in particular not the fallback's previously cached
instance); and on a container with no registration for the type at all, a
named registration alone makes the type resolvable unnamed through the
auto-created fallback entry. -/
theorem claim_c9 :
    (∀ s : BeanContainer, ∀ ty : TypeName, ∀ scope : Scope,
      ∀ deps : List (TypeName × Option String), ∀ fails : Option String,
      mapContains s.beans (Identifier.TypeSpec ty) = true →
      register s ty scope deps fails =
        (.error ("Bean already registered: " ++ (Identifier.TypeSpec ty).display), s)) ∧
    (∀ s : BeanContainer, ∀ ty : TypeName, ∀ scope : Scope,
      ∀ deps : List (TypeName × Option String), ∀ fails : Option String,
      mapContains s.beans (Identifier.TypeSpec ty) = false →
      (register s ty scope deps fails).1 = .ok () ∧
      mapGet (register s ty scope deps fails).2.beans (Identifier.TypeSpec ty) =
        some ⟨⟨deps, fails, ty⟩, scope, none⟩ ∧
      resolveId (register s ty scope deps fails).2.beans ty none =
        .ok (Identifier.TypeSpec ty) ∧
      ((s.beans.map Prod.fst).Nodup →
        mapContains (register s ty scope deps fails).2.beans
          (Identifier.Unnamed ty) = false)) ∧
    (∀ s : BeanContainer, ∀ ty : TypeName, ∀ scope : Scope,
      ∀ deps : List (TypeName × Option String), ∀ fails : Option String,
      ∀ d0 : BeanDefinition, ∀ i0 : Instance,
      mapContains s.beans (Identifier.TypeSpec ty) = false →
      mapGet s.beans (Identifier.Unnamed ty) = some d0 → d0.inst = some i0 →
      i0.addr < s.nextAddr →
      ∀ fuel : Nat, ∀ i : Instance, ∀ s2 : BeanContainer,
        try_get fuel (register s ty scope deps fails).2 ty none = (.ok i, s2) →
        i ≠ i0 ∧ i.ty = ty) ∧
    (∀ s : BeanContainer, ∀ n : String, ∀ ty : TypeName, ∀ scope : Scope,
      ∀ deps : List (TypeName × Option String), ∀ fails : Option String,
      mapContains s.beans (Identifier.Named n) = false →
      mapContains s.beans (Identifier.TypeSpec ty) = false →
      mapContains s.beans (Identifier.Unnamed ty) = false →
      (register_named s n ty scope deps fails).1 = .ok () ∧
      mapContains (register_named s n ty scope deps fails).2.beans
        (Identifier.Unnamed ty) = true ∧
      resolveId (register_named s n ty scope deps fails).2.beans ty none =
        .ok (Identifier.Unnamed ty)) := by
  refine ⟨?_, ?_, ?_, ?_⟩
  · intro s ty scope deps fails hT
    simp [register, hT]
  · intro s ty scope deps fails hT
    have hred : (register s ty scope deps fails).2 =
        { s with beans := mapInsert (mapRemove s.beans (Identifier.Unnamed ty)) (Identifier.TypeSpec ty) ⟨⟨deps, fails, ty⟩, scope, none⟩ } := by
      simp [register, hT]
    have hok : (register s ty scope deps fails).1 = .ok () := by
      simp [register, hT]
    have hD' : mapGet (register s ty scope deps fails).2.beans
        (Identifier.TypeSpec ty) = some ⟨⟨deps, fails, ty⟩, scope, none⟩ := by
      rw [hred]
      exact mapGet_insert_self _ _ _
    refine ⟨hok, hD', resolveId_typeSpec (mapContains_of_get hD'), ?_⟩
    intro hnodup
    rw [hred]
    show mapContains _ (Identifier.Unnamed ty) = false
    rw [mapContains_insert_ne (by simp)]
    have h1 : mapGet (mapRemove s.beans (Identifier.Unnamed ty))
        (Identifier.Unnamed ty) = none := mapGet_remove_self _ _ hnodup
    simp [mapContains, h1]
  · intro s ty scope deps fails d0 i0 hT hU hinst haddr fuel i s2 hget
    have hred : (register s ty scope deps fails).2 =
        { s with beans := mapInsert (mapRemove s.beans (Identifier.Unnamed ty)) (Identifier.TypeSpec ty) ⟨⟨deps, fails, ty⟩, scope, none⟩ } := by
      simp [register, hT]
    have hD' : mapGet (register s ty scope deps fails).2.beans
        (Identifier.TypeSpec ty) = some ⟨⟨deps, fails, ty⟩, scope, none⟩ := by
      rw [hred]
      exact mapGet_insert_self _ _ _
    have hI : resolveId (register s ty scope deps fails).2.beans ty none =
        .ok (Identifier.TypeSpec ty) := resolveId_typeSpec (mapContains_of_get hD')
    rcases hG : get_with_context fuel (register s ty scope deps fails).2 ty none []
      with ⟨r0, s0, ctx0⟩
    have htg : try_get fuel (register s ty scope deps fails).2 ty none = (r0, s0) := by
      simp [try_get, hG]
    rw [htg] at hget
    have hr : r0 = .ok i := congrArg Prod.fst hget
    have hs : s0 = s2 := congrArg Prod.snd hget
    subst hr
    subst hs
    obtain ⟨hty, hcase⟩ := gwc_success fuel (register s ty scope deps fails).2
      ty none [] (Identifier.TypeSpec ty) ⟨⟨deps, fails, ty⟩, scope, none⟩ i s0
      ctx0 hI hD' hG
    refine ⟨?_, hty⟩
    rcases hcase with ⟨_, hin, _, _⟩ | ⟨_, hlo, _, _, _⟩
    · exact absurd hin (by simp)
    · intro heq
      have hna : (register s ty scope deps fails).2.nextAddr = s.nextAddr := by
        rw [hred]
      rw [hna] at hlo
      rw [heq] at hlo
      omega
  · intro s n ty scope deps fails hN hT hU
    have hred := @register_named_fallback s n ty scope deps fails hN hT hU
    have hok : (register_named s n ty scope deps fails).1 = .ok () := by
      rw [hred]
    have hU' : mapGet (register_named s n ty scope deps fails).2.beans
        (Identifier.Unnamed ty) = some ⟨⟨deps, fails, ty⟩, scope, none⟩ := by
      rw [congrArg Prod.snd hred]
      exact mapGet_insert_self _ _ _
    have hT' : mapContains (register_named s n ty scope deps fails).2.beans
        (Identifier.TypeSpec ty) = false := by
      rw [congrArg Prod.snd hred]
      show mapContains _ _ = false
      rw [mapContains_insert_ne (by simp), mapContains_insert_ne (by simp)]
      exact hT
    exact ⟨hok, mapContains_of_get hU', resolveId_unnamed hT' (mapContains_of_get hU')⟩

/-- Containers for the C9 witness: a named-only registration for T, the
same container after the fallback's singleton instance has been cached,
and the container after the explicit type-default registration and one
further unnamed get. -/
def c9a : BeanContainer :=
  (register_named BeanContainer.new "n" "T" Scope.Singleton [] none).2

def c9b : BeanContainer := (try_get 3 c9a "T" none).2

def c9c : BeanContainer :=
  (try_get 3 (register c9b "T" Scope.Singleton [] none).2 "T" none).2

/-- Witness for C9 at a concrete input: after superseding the cached
fallback with an explicit type-default, the unnamed get returns a fresh
instance of the new registration, not the fallback's cached one. -/
theorem claim_c9_witness :
    (⟨1, "T"⟩ : Instance) ≠ ⟨0, "T"⟩ ∧ (⟨1, "T"⟩ : Instance).ty = "T" :=
  claim_c9.2.2.1 c9b "T" Scope.Singleton [] none
    ⟨⟨[], none, "T"⟩, Scope.Singleton, some ⟨0, "T"⟩⟩ ⟨0, "T"⟩
    (by decide) (by decide) (by decide) (by decide) 3 ⟨1, "T"⟩ c9c (by decide)

/-! Claim C10. -/

/-- Resolution of a dependency-free Singleton definition: the factory
allocates exactly one fresh instance, which is published to the resolved
identifier and to no other entry. -/
theorem gwc_no_deps (fuel : Nat) (s : BeanContainer) (ty oty : TypeName)
    (name : Option String) (ctx : CreationContext) (id : Identifier)
    (hI : resolveId s.beans ty name = .ok id)
    (hD : mapGet s.beans id = some ⟨⟨[], none, oty⟩, Scope.Singleton, none⟩)
    (hlen : ctx.length ≤ 100) (hmem : id ∉ ctx) :
    get_with_context (fuel + 1) s ty name ctx =
      (downcast ⟨s.nextAddr, oty⟩ ty,
        { s with beans := publish s.beans id ⟨s.nextAddr, oty⟩, nextAddr := s.nextAddr + 1 },
        CreationContext.exit (ctx ++ [id])) := by
  rw [get_with_context_succ]
  simp only [hI, enter_ok_of hlen hmem,
    singletonCached_none_of_uncached hD rfl]
  have hcon : construct (get_with_context fuel) s ty id (ctx ++ [id]) =
      (downcast ⟨s.nextAddr, oty⟩ ty,
        { s with beans := publish s.beans id ⟨s.nextAddr, oty⟩, nextAddr := s.nextAddr + 1 },
        ctx ++ [id]) := by
    simp [construct, hD, constructRun, runFactory, resolveDeps]
  rw [hcon]

/-- C10: a single named Singleton registration on a container with no
prior registrations for the type creates the Named entry and the Unnamed
fallback entry holding one shared factory but separate instance caches:
get_named and then get each run the factory once (allocating fresh
instances at consecutive addresses), return instances that are not
pointer-equal, and leave the two entries caching the two different
instances. Stated for a dependency-free factory. -/
theorem claim_c10 (s : BeanContainer) (n : String) (ty : TypeName)
    (fuel1 fuel2 : Nat)
    (h1 : mapContains s.beans (Identifier.Named n) = false)
    (h2 : mapContains s.beans (Identifier.TypeSpec ty) = false)
    (h3 : mapContains s.beans (Identifier.Unnamed ty) = false)
    (s1 : BeanContainer)
    (hreg1 : register_named s n ty Scope.Singleton [] none = (.ok (), s1))
    (i1 : Instance) (s2 : BeanContainer)
    (hget1 : try_get (fuel1 + 1) s1 ty (some n) = (.ok i1, s2))
    (i2 : Instance) (s3 : BeanContainer)
    (hget2 : try_get (fuel2 + 1) s2 ty none = (.ok i2, s3)) :
    i1 = ⟨s.nextAddr, ty⟩ ∧ i2 = ⟨s.nextAddr + 1, ty⟩ ∧ i1 ≠ i2 ∧
    mapGet s1.beans (Identifier.Named n) = mapGet s1.beans (Identifier.Unnamed ty) ∧
    mapGet s3.beans (Identifier.Named n) =
      some ⟨⟨[], none, ty⟩, Scope.Singleton, some i1⟩ ∧
    mapGet s3.beans (Identifier.Unnamed ty) =
      some ⟨⟨[], none, ty⟩, Scope.Singleton, some i2⟩ := by
  have hreg := @register_named_fallback s n ty Scope.Singleton [] none h1 h2 h3
  have hs1 : s1 = { s with beans := mapInsert (mapInsert s.beans (Identifier.Named n) ⟨⟨[], none, ty⟩, Scope.Singleton, none⟩) (Identifier.Unnamed ty) ⟨⟨[], none, ty⟩, Scope.Singleton, none⟩ } :=
    congrArg Prod.snd (hreg1.symm.trans hreg)
  subst hs1
  set dd : BeanDefinition := ⟨⟨[], none, ty⟩, Scope.Singleton, none⟩ with hdd
  set s1d : BeanContainer := { s with beans := mapInsert (mapInsert s.beans (Identifier.Named n) dd) (Identifier.Unnamed ty) dd } with hs1d
  have hN1 : mapGet s1d.beans (Identifier.Named n) = some dd := by
    show mapGet (mapInsert (mapInsert s.beans (Identifier.Named n) dd)
      (Identifier.Unnamed ty) dd) (Identifier.Named n) = some dd
    rw [mapGet_insert_ne _ _ _ _ (by simp)]
    exact mapGet_insert_self _ _ _
  have hU1 : mapGet s1d.beans (Identifier.Unnamed ty) = some dd :=
    mapGet_insert_self _ _ _
  have hg1 := gwc_no_deps fuel1 s1d ty ty (some n) [] (Identifier.Named n)
    (resolveId_named _ _ _) hN1 (by simp) (by simp)
  set j1 : Instance := ⟨s1d.nextAddr, ty⟩ with hj1
  set s2d : BeanContainer := { s1d with beans := publish s1d.beans (Identifier.Named n) j1, nextAddr := s1d.nextAddr + 1 } with hs2d
  have htg1 : try_get (fuel1 + 1) s1d ty (some n) = (.ok j1, s2d) := by
    simp [try_get, hg1, downcast_self rfl]
  have hi1 : i1 = j1 := by
    have hcmp1 := hget1.symm.trans htg1
    have := congrArg Prod.fst hcmp1
    injection this
  have hs2 : s2 = s2d := congrArg Prod.snd (hget1.symm.trans htg1)
  subst hi1
  subst hs2
  have hN2 : mapGet s2d.beans (Identifier.Named n) =
      some { dd with inst := some j1 } :=
    publish_get_self_empty hN1 rfl
  have hU2 : mapGet s2d.beans (Identifier.Unnamed ty) = some dd := by
    show mapGet (publish s1d.beans (Identifier.Named n) j1)
      (Identifier.Unnamed ty) = some dd
    rw [publish_get_ne (by simp)]
    exact hU1
  have hT2 : mapContains s2d.beans (Identifier.TypeSpec ty) = false := by
    have hnone : mapGet s2d.beans (Identifier.TypeSpec ty) = none := by
      show mapGet (publish s1d.beans (Identifier.Named n) j1)
        (Identifier.TypeSpec ty) = none
      rw [publish_get_ne (by simp)]
      show mapGet (mapInsert (mapInsert s.beans (Identifier.Named n) dd)
        (Identifier.Unnamed ty) dd) (Identifier.TypeSpec ty) = none
      rw [mapGet_insert_ne _ _ _ _ (by simp), mapGet_insert_ne _ _ _ _ (by simp)]
      exact mapGet_eq_none_of_contains_false h2
    simp [mapContains, hnone]
  have hI2 : resolveId s2d.beans ty none = .ok (Identifier.Unnamed ty) :=
    resolveId_unnamed hT2 (mapContains_of_get hU2)
  have hg2 := gwc_no_deps fuel2 s2d ty ty none [] (Identifier.Unnamed ty)
    hI2 hU2 (by simp) (by simp)
  set j2 : Instance := ⟨s2d.nextAddr, ty⟩ with hj2
  set s3d : BeanContainer := { s2d with beans := publish s2d.beans (Identifier.Unnamed ty) j2, nextAddr := s2d.nextAddr + 1 } with hs3d
  have htg2 : try_get (fuel2 + 1) s2d ty none = (.ok j2, s3d) := by
    simp [try_get, hg2, downcast_self rfl]
  have hi2 : i2 = j2 := by
    have hcmp2 := hget2.symm.trans htg2
    have := congrArg Prod.fst hcmp2
    injection this
  have hs3 : s3 = s3d := congrArg Prod.snd (hget2.symm.trans htg2)
  subst hi2
  subst hs3
  have hN3 : mapGet s3d.beans (Identifier.Named n) =
      some { dd with inst := some j1 } := by
    show mapGet (publish s2d.beans (Identifier.Unnamed ty) j2)
      (Identifier.Named n) = some { dd with inst := some j1 }
    rw [publish_get_ne (by simp)]
    exact hN2
  have hU3 : mapGet s3d.beans (Identifier.Unnamed ty) =
      some { dd with inst := some j2 } :=
    publish_get_self_empty hU2 rfl
  refine ⟨rfl, rfl, ?_, hN1.trans hU1.symm, hN3, hU3⟩
  intro hh
  have := congrArg Instance.addr hh
  simp [hj1, hj2] at this

/-- Containers for the C10 witness: a fresh named Singleton registration
for T, then the container after get_named, then after the unnamed get. -/
def c10a : BeanContainer :=
  (register_named BeanContainer.new "n" "T" Scope.Singleton [] none).2

def c10b : BeanContainer := (try_get 2 c10a "T" (some "n")).2

def c10c : BeanContainer := (try_get 2 c10b "T" none).2

/-- Witness for C10 at a concrete container: the two resolutions return
distinct instances and the Named and Unnamed entries cache them
separately. -/
theorem claim_c10_witness :
    (⟨0, "T"⟩ : Instance) = ⟨BeanContainer.new.nextAddr, "T"⟩ ∧
    (⟨1, "T"⟩ : Instance) = ⟨BeanContainer.new.nextAddr + 1, "T"⟩ ∧
    (⟨0, "T"⟩ : Instance) ≠ ⟨1, "T"⟩ ∧
    mapGet c10a.beans (Identifier.Named "n") = mapGet c10a.beans (Identifier.Unnamed "T") ∧
    mapGet c10c.beans (Identifier.Named "n") =
      some ⟨⟨[], none, "T"⟩, Scope.Singleton, some ⟨0, "T"⟩⟩ ∧
    mapGet c10c.beans (Identifier.Unnamed "T") =
      some ⟨⟨[], none, "T"⟩, Scope.Singleton, some ⟨1, "T"⟩⟩ :=
  claim_c10 BeanContainer.new "n" "T" 1 1 (by decide) (by decide) (by decide)
    c10a (by decide) ⟨0, "T"⟩ c10b (by decide) ⟨1, "T"⟩ c10c (by decide)

/-! Claim C5: the TypeMismatch error. Named identifiers carry no type, so
a get_named with a type parameter different from the one the name was
registered under reaches the downcast failure; under type-consistent
requests the error is unreachable, which takes a well-typedness invariant
over the container. -/

/-- Type-consistency of the named requests in a dependency list: each
named dependency must name a registration whose factory produces the
requested type. -/
def DepsOK (m : BeanMap) (deps : List (TypeName × Option String)) : Prop :=
  ∀ t : TypeName, ∀ n : String, (t, some n) ∈ deps →
    ∀ d : BeanDefinition, mapGet m (Identifier.Named n) = some d →
      d.factory.outTy = t

/-- A factory neither returns the downcast message as its own user error
nor issues type-inconsistent named requests. -/
def FactoryOK (m : BeanMap) (f : Factory) : Prop :=
  f.fails ≠ some "Type downcast failed" ∧ DepsOK m f.deps

/-- Unnamed identifiers determine the output type of their factory; named
ones constrain nothing (the name carries no type in the source). -/
def IdOK : Identifier → Factory → Prop
  | Identifier.TypeSpec t, f => f.outTy = t
  | Identifier.Unnamed t, f => f.outTy = t
  | Identifier.Named _, _ => True

/-- Well-typedness of a container: unnamed entries produce their own
type, caches hold instances of their factory's output type, and every
stored factory is FactoryOK. Holds for every state built by register and
register_named with type-consistent named dependencies. -/
def Consistent (s : BeanContainer) : Prop :=
  ∀ id d, mapGet s.beans id = some d →
    IdOK id d.factory ∧
    (∀ i, d.inst = some i → i.ty = d.factory.outTy) ∧
    FactoryOK s.beans d.factory

/-- Type-consistency of one request: a named request must match the type
under which the name is registered. -/
def RequestOK (m : BeanMap) (ty : TypeName) (name : Option String) : Prop :=
  ∀ n, name = some n → ∀ d, mapGet m (Identifier.Named n) = some d →
    d.factory.outTy = ty

theorem notFound_ne_mismatch (x : String) :
    ("Bean not found: " ++ x) ≠ "Type downcast failed" := by
  intro h
  have hd := congrArg String.data h
  rw [String.data_append] at hd
  simp [String.data] at hd

theorem circular_ne_mismatch (a b : String) :
    ((("Circular dependency detected: " ++ a) ++ " -> ") ++ b) ≠
      "Type downcast failed" := by
  intro h
  have hd := congrArg String.data h
  rw [String.data_append, String.data_append, String.data_append] at hd
  simp [String.data] at hd

theorem resolveId_error {m : BeanMap} {ty : TypeName} {name : Option String}
    {e : String} (h : resolveId m ty name = .error e) :
    e = "Bean not found: " ++ (Identifier.TypeSpec ty).display := by
  rcases name with _ | n
  · simp only [resolveId] at h
    split at h
    · exact absurd h (by simp)
    · split at h
      · exact absurd h (by simp)
      · injection h with h
        exact h.symm
  · simp only [resolveId] at h
    exact absurd h (by simp)

theorem enter_error {ctx : CreationContext} {id : Identifier} {e : String}
    (h : CreationContext.enter ctx id = .error e) :
    e = "Dependency chain too deep (>100)" ∨
    e = "Circular dependency detected: " ++ CreationContext.get_path ctx ++
      " -> " ++ id.display := by
  unfold CreationContext.enter at h
  split at h
  · injection h with h
    exact Or.inl h.symm
  · split at h
    · injection h with h
      exact Or.inr h.symm
    · exact absurd h (by simp)

theorem resolveId_ok_shape {m : BeanMap} {ty : TypeName} {name : Option String}
    {id : Identifier} (h : resolveId m ty name = .ok id) :
    (id = Identifier.TypeSpec ty ∨ id = Identifier.Unnamed ty) ∨
    (∃ n, name = some n ∧ id = Identifier.Named n) := by
  rcases name with _ | n
  · simp only [resolveId] at h
    split at h
    · injection h with h
      exact Or.inl (Or.inl h.symm)
    · split at h
      · injection h with h
        exact Or.inl (Or.inr h.symm)
      · exact absurd h (by simp)
  · simp only [resolveId] at h
    injection h with h
    exact Or.inr ⟨n, rfl, h.symm⟩

theorem resolved_outTy {s : BeanContainer} {ty : TypeName}
    {name : Option String} {id : Identifier} {d : BeanDefinition}
    (hc : Consistent s) (hreq : RequestOK s.beans ty name)
    (hI : resolveId s.beans ty name = .ok id)
    (hd : mapGet s.beans id = some d) :
    d.factory.outTy = ty := by
  rcases resolveId_ok_shape hI with (hid | hid) | ⟨n, hn, hid⟩
  · subst hid
    exact (hc _ _ hd).1
  · subst hid
    exact (hc _ _ hd).1
  · subst hid
    exact hreq n hn d hd

theorem evolves_factory_of_named {s s' : BeanContainer} (hev : Evolves s s')
    {n : String} {d' : BeanDefinition}
    (h : mapGet s'.beans (Identifier.Named n) = some d') :
    ∃ d, mapGet s.beans (Identifier.Named n) = some d ∧
      d'.factory = d.factory := by
  rcases hg : mapGet s.beans (Identifier.Named n) with _ | d
  · rw [hev.get_none _ hg] at h
    exact absurd h (by simp)
  · obtain ⟨d2, hg2, hf2, _, _⟩ := hev.2.2 _ _ hg
    rw [hg2] at h
    injection h with h
    exact ⟨d, by simp [hg], by rw [← h]; exact hf2⟩

theorem depsOK_mono {s s' : BeanContainer} (hev : Evolves s s')
    {deps : List (TypeName × Option String)} (h : DepsOK s.beans deps) :
    DepsOK s'.beans deps := by
  intro t n hmem d' hd'
  obtain ⟨d, hd, hf⟩ := evolves_factory_of_named hev hd'
  rw [hf]
  exact h t n hmem d hd

theorem mapGet_publish_factory {m : BeanMap} {id j : Identifier}
    {i : Instance} {d' : BeanDefinition}
    (h : mapGet (publish m id i) j = some d') :
    ∃ d, mapGet m j = some d ∧ d'.factory = d.factory ∧ d'.scope = d.scope ∧
      (d'.inst = d.inst ∨ (j = id ∧ d.inst = none ∧ d'.inst = some i)) := by
  by_cases hji : j = id
  · subst hji
    rcases hD : mapGet m j with _ | d
    · have hno : publish m j i = m := by
        unfold publish
        rw [hD]
      rw [hno, hD] at h
      exact absurd h (by simp)
    · rcases hI : d.inst with _ | x
      · rw [publish_get_self_empty hD hI] at h
        injection h with h
        exact ⟨d, by simp [hD], by rw [← h], by rw [← h],
          Or.inr ⟨rfl, hI, by rw [← h]⟩⟩
      · rw [publish_get_self_full hD hI, hD] at h
        injection h with h
        exact ⟨d, by simp [hD], by rw [h], by rw [h], Or.inl (by rw [h])⟩
  · rw [publish_get_ne hji] at h
    exact ⟨d', h, rfl, rfl, Or.inl rfl⟩

theorem consistent_publish {s2 : BeanContainer} {id : Identifier}
    {i : Instance} (hc : Consistent s2)
    (hty : ∀ d, mapGet s2.beans id = some d → i.ty = d.factory.outTy) :
    Consistent { s2 with beans := publish s2.beans id i } := by
  intro j dj hj
  obtain ⟨d, hd, hfac, hsc, hinst⟩ := mapGet_publish_factory hj
  obtain ⟨hidok, hcache, hfok⟩ := hc j d hd
  refine ⟨by rw [hfac]; exact hidok, ?_, ?_⟩
  · intro x hx
    rcases hinst with hinst | ⟨hje, hnone, hsome⟩
    · rw [hinst] at hx
      rw [hfac]
      exact hcache x hx
    · rw [hsome] at hx
      injection hx with hx
      rw [hfac, ← hx]
      exact hty d (hje ▸ hd)
  · rw [hfac]
    refine ⟨hfok.1, ?_⟩
    intro t n hmem d2 hd2
    obtain ⟨d0, hd0, hf0, _, _⟩ := mapGet_publish_factory hd2
    rw [hf0]
    exact hfok.2 t n hmem d0 hd0

/-- Absence of the TypeMismatch error for one resolution procedure, along
with preservation of container well-typedness. -/
def MismatchFree (g : Getter) : Prop :=
  ∀ s ty name ctx r s' ctx', Consistent s → RequestOK s.beans ty name →
    g s ty name ctx = (r, s', ctx') →
    Consistent s' ∧ ∀ e : String, r = .error e → e ≠ "Type downcast failed"

theorem resolveDeps_mismatch (g : Getter) (hg1 : StepOK g)
    (hg2 : MismatchFree g) :
    ∀ (deps : List (TypeName × Option String)) (s : BeanContainer)
      (ctx : CreationContext) (r : Except String Unit) (s' : BeanContainer)
      (ctx' : CreationContext), Consistent s → DepsOK s.beans deps →
      resolveDeps g deps s ctx = (r, s', ctx') →
      Consistent s' ∧ ∀ e : String, r = .error e → e ≠ "Type downcast failed" := by
  intro deps
  induction deps with
  | nil =>
    intro s ctx r s' ctx' hc _ h
    obtain ⟨h1, h2, h3⟩ := triple_eq h
    subst h2
    exact ⟨hc, fun e he => by rw [← h1] at he; exact absurd he (by simp)⟩
  | cons p rest ih =>
    obtain ⟨t, nm⟩ := p
    intro s ctx r s' ctx' hc hdeps h
    rcases hG : g s t nm ctx with ⟨r1, s2, ctx2⟩
    have hreq : RequestOK s.beans t nm := by
      intro n hn d hd
      subst hn
      exact hdeps t n (List.mem_cons_self _ _) d hd
    obtain ⟨hc2, hne1⟩ := hg2 s t nm ctx r1 s2 ctx2 hc hreq hG
    rcases r1 with e | u
    · have hred : resolveDeps g ((t, nm) :: rest) s ctx = (.error e, s2, ctx2) := by
        simp [resolveDeps, hG]
      rw [hred] at h
      obtain ⟨h1, h2, h3⟩ := triple_eq h
      subst h2
      refine ⟨hc2, fun e' he' => ?_⟩
      rw [← h1] at he'
      injection he' with he'
      rw [← he']
      exact hne1 e rfl
    · have hred : resolveDeps g ((t, nm) :: rest) s ctx =
          resolveDeps g rest s2 ctx2 := by
        simp [resolveDeps, hG]
      rw [hred] at h
      have hdeps2 : DepsOK s2.beans rest := by
        obtain ⟨_, hev, _, _⟩ := hg1 s t nm ctx _ _ _ hG
        intro t' n' hmem d' hd'
        obtain ⟨d0, hd0, hf0⟩ := evolves_factory_of_named hev hd'
        rw [hf0]
        exact hdeps t' n' (List.mem_cons_of_mem _ hmem) d0 hd0
      exact ih s2 ctx2 r s' ctx' hc2 hdeps2 h

theorem evolves_factory_back {s s' : BeanContainer} (hev : Evolves s s')
    {j : Identifier} {d' : BeanDefinition}
    (h : mapGet s'.beans j = some d') :
    ∃ d, mapGet s.beans j = some d ∧ d'.factory = d.factory := by
  rcases hg : mapGet s.beans j with _ | d
  · rw [hev.get_none _ hg] at h
    exact absurd h (by simp)
  · obtain ⟨d2, hg2, hf2, _, _⟩ := hev.2.2 _ _ hg
    rw [hg2] at h
    injection h with h
    exact ⟨d, by simp [hg], by rw [← h]; exact hf2⟩

theorem runFactory_mismatch (g : Getter) (hg1 : StepOK g) (hg2 : MismatchFree g)
    (s : BeanContainer) (fac : Factory) (ctx : CreationContext)
    (r : Except String Instance) (s' : BeanContainer) (ctx' : CreationContext)
    (hc : Consistent s) (hfok : FactoryOK s.beans fac)
    (h : runFactory g s fac ctx = (r, s', ctx')) :
    Consistent s' ∧ ∀ e : String, r = .error e → e ≠ "Type downcast failed" := by
  rcases hR : resolveDeps g fac.deps s ctx with ⟨rd, sD, ctxD⟩
  obtain ⟨hcD, hneD⟩ := resolveDeps_mismatch g hg1 hg2 fac.deps s ctx rd sD
    ctxD hc hfok.2 hR
  rcases rd with e | u
  · have hred : runFactory g s fac ctx = (.error e, sD, ctxD) := by
      simp [runFactory, hR]
    rw [hred] at h
    obtain ⟨h1, h2, h3⟩ := triple_eq h
    subst h2
    refine ⟨hcD, fun e' he' => ?_⟩
    rw [← h1] at he'
    injection he' with he'
    rw [← he']
    exact hneD e rfl
  · rcases hf : fac.fails with _ | e
    · have hred : runFactory g s fac ctx =
          (.ok ⟨sD.nextAddr, fac.outTy⟩, { sD with nextAddr := sD.nextAddr + 1 }, ctxD) := by
        simp [runFactory, hR, hf]
      rw [hred] at h
      obtain ⟨h1, h2, h3⟩ := triple_eq h
      subst h2
      refine ⟨fun j dj hj => hcD j dj hj, fun e' he' => ?_⟩
      rw [← h1] at he'
      exact absurd he' (by simp)
    · have hred : runFactory g s fac ctx = (.error e, sD, ctxD) := by
        simp [runFactory, hR, hf]
      rw [hred] at h
      obtain ⟨h1, h2, h3⟩ := triple_eq h
      subst h2
      refine ⟨hcD, fun e' he' => ?_⟩
      rw [← h1] at he'
      injection he' with he'
      intro hmsg
      apply hfok.1
      rw [hf, he', hmsg]

theorem constructRun_mismatch (g : Getter) (hg1 : StepOK g)
    (hg2 : MismatchFree g) (s : BeanContainer) (ty : TypeName)
    (id : Identifier) (fac : Factory) (scope : Scope) (ctx : CreationContext)
    (r : Except String Instance) (s' : BeanContainer) (ctx' : CreationContext)
    (hc : Consistent s) (hfok : FactoryOK s.beans fac) (hout : fac.outTy = ty)
    (hfacid : ∀ d, mapGet s.beans id = some d → d.factory = fac)
    (h : constructRun g s ty id fac scope ctx = (r, s', ctx')) :
    Consistent s' ∧ ∀ e : String, r = .error e → e ≠ "Type downcast failed" := by
  rcases hF : runFactory g s fac ctx with ⟨rf, s2, ctx2⟩
  obtain ⟨hc2, hne2⟩ := runFactory_mismatch g hg1 hg2 s fac ctx rf s2 ctx2
    hc hfok hF
  obtain ⟨_, hev2, _, hok2⟩ := runFactory_spec g hg1 s fac ctx rf s2 ctx2 hF
  rcases rf with e | newInstance
  · have hred : constructRun g s ty id fac scope ctx = (.error e, s2, ctx2) := by
      simp [constructRun, hF]
    rw [hred] at h
    obtain ⟨h1, h2, h3⟩ := triple_eq h
    subst h2
    refine ⟨hc2, fun e' he' => ?_⟩
    rw [← h1] at he'
    injection he' with he'
    rw [← he']
    exact hne2 e rfl
  · obtain ⟨htyI, _, _⟩ := hok2 newInstance rfl
    have hdc : downcast newInstance ty = .ok newInstance :=
      downcast_self (htyI.trans hout)
    rcases hS : scope with _ | _
    · have hred : constructRun g s ty id fac scope ctx =
          (downcast newInstance ty,
            { s2 with beans := publish s2.beans id newInstance }, ctx2) := by
        simp [constructRun, hF, hS]
      rw [hred] at h
      obtain ⟨h1, h2, h3⟩ := triple_eq h
      subst h2
      refine ⟨?_, fun e' he' => ?_⟩
      · apply consistent_publish hc2
        intro d hd
        obtain ⟨d0, hd0, hf0⟩ := evolves_factory_back hev2 hd
        rw [htyI, hf0, hfacid d0 hd0]
      · rw [← h1, hdc] at he'
        exact absurd he' (by simp)
    · have hred : constructRun g s ty id fac scope ctx =
          (downcast newInstance ty, s2, ctx2) := by
        simp [constructRun, hF, hS]
      rw [hred] at h
      obtain ⟨h1, h2, h3⟩ := triple_eq h
      subst h2
      refine ⟨hc2, fun e' he' => ?_⟩
      rw [← h1, hdc] at he'
      exact absurd he' (by simp)

theorem construct_mismatch (g : Getter) (hg1 : StepOK g) (hg2 : MismatchFree g)
    (s : BeanContainer) (ty : TypeName) (id : Identifier) (ctx : CreationContext)
    (r : Except String Instance) (s' : BeanContainer) (ctx' : CreationContext)
    (hc : Consistent s)
    (houtid : ∀ d, mapGet s.beans id = some d → d.factory.outTy = ty)
    (h : construct g s ty id ctx = (r, s', ctx')) :
    Consistent s' ∧ ∀ e : String, r = .error e → e ≠ "Type downcast failed" := by
  rcases hD : mapGet s.beans id with _ | ⟨fac, sc, oin⟩
  · have hred : construct g s ty id ctx =
        (.error ("Bean not found: " ++ id.display), s, ctx) := by
      simp [construct, hD]
    rw [hred] at h
    obtain ⟨h1, h2, h3⟩ := triple_eq h
    subst h2
    refine ⟨hc, fun e' he' => ?_⟩
    rw [← h1] at he'
    injection he' with he'
    rw [← he']
    exact notFound_ne_mismatch _
  · have hfacid : ∀ d, mapGet s.beans id = some d → d.factory = fac := by
      intro d hd
      rw [hD] at hd
      injection hd with hd
      rw [← hd]
    have hout : fac.outTy = ty := houtid ⟨fac, sc, oin⟩ hD
    have hfok : FactoryOK s.beans fac := (hc id ⟨fac, sc, oin⟩ hD).2.2
    rcases sc with _ | _ <;> rcases oin with _ | inst
    · have hred : construct g s ty id ctx =
          constructRun g s ty id fac Scope.Singleton ctx := by
        simp [construct, hD]
      rw [hred] at h
      exact constructRun_mismatch g hg1 hg2 s ty id fac Scope.Singleton ctx
        r s' ctx' hc hfok hout hfacid h
    · have hred : construct g s ty id ctx = (downcast inst ty, s, ctx) := by
        simp [construct, hD]
      rw [hred] at h
      obtain ⟨h1, h2, h3⟩ := triple_eq h
      subst h2
      have hity : inst.ty = ty := by
        have h4 := (hc id ⟨fac, Scope.Singleton, some inst⟩ hD).2.1 inst rfl
        rw [h4]
        exact hout
      refine ⟨hc, fun e' he' => ?_⟩
      rw [← h1, downcast_self hity] at he'
      exact absurd he' (by simp)
    · have hred : construct g s ty id ctx =
          constructRun g s ty id fac Scope.Prototype ctx := by
        simp [construct, hD]
      rw [hred] at h
      exact constructRun_mismatch g hg1 hg2 s ty id fac Scope.Prototype ctx
        r s' ctx' hc hfok hout hfacid h
    · have hred : construct g s ty id ctx =
          constructRun g s ty id fac Scope.Prototype ctx := by
        simp [construct, hD]
      rw [hred] at h
      exact constructRun_mismatch g hg1 hg2 s ty id fac Scope.Prototype ctx
        r s' ctx' hc hfok hout hfacid h

theorem gwc_mismatchFree : ∀ fuel : Nat, MismatchFree (get_with_context fuel) := by
  intro fuel
  induction fuel with
  | zero =>
    intro s ty name ctx r s' ctx' hc hreq h
    rw [get_with_context_zero] at h
    obtain ⟨h1, h2, h3⟩ := triple_eq h
    subst h2
    refine ⟨hc, fun e he => ?_⟩
    rw [← h1] at he
    injection he with he
    rw [← he]
    decide
  | succ fuel ih =>
    intro s ty name ctx r s' ctx' hc hreq h
    rw [get_with_context_succ] at h
    rcases hI : resolveId s.beans ty name with e | id
    · simp only [hI] at h
      obtain ⟨h1, h2, h3⟩ := triple_eq h
      subst h2
      refine ⟨hc, fun e' he' => ?_⟩
      rw [← h1] at he'
      injection he' with he'
      rw [← he', resolveId_error hI]
      exact notFound_ne_mismatch _
    · simp only [hI] at h
      rcases hE : CreationContext.enter ctx id with e | ctx1
      · simp only [hE] at h
        obtain ⟨h1, h2, h3⟩ := triple_eq h
        subst h2
        refine ⟨hc, fun e' he' => ?_⟩
        rw [← h1] at he'
        injection he' with he'
        rw [← he']
        rcases enter_error hE with hdeep | hcirc
        · rw [hdeep]
          decide
        · rw [hcirc]
          exact circular_ne_mismatch _ _
      · simp only [hE] at h
        rcases hC : singletonCached s.beans id with _ | inst
        · simp only [hC] at h
          rcases hK : construct (get_with_context fuel) s ty id ctx1
            with ⟨r2, s2, ctx2⟩
          simp only [hK] at h
          obtain ⟨h1, h2, h3⟩ := triple_eq h
          subst h2
          obtain ⟨hc2, hne2⟩ := construct_mismatch (get_with_context fuel)
            (get_with_context_stepOK fuel) ih s ty id ctx1 r2 s2 ctx2 hc
            (fun d hd => resolved_outTy hc hreq hI hd) hK
          refine ⟨hc2, fun e' he' => ?_⟩
          rw [← h1] at he'
          exact hne2 e' he'
        · simp only [hC] at h
          obtain ⟨h1, h2, h3⟩ := triple_eq h
          subst h2
          obtain ⟨d, hd, hsc, hinst⟩ := singletonCached_some hC
          have hity : inst.ty = ty := by
            have h4 := (hc id d hd).2.1 inst hinst
            rw [h4]
            exact resolved_outTy hc hreq hI hd
          refine ⟨hc, fun e' he' => ?_⟩
          rw [← h1, downcast_self hity] at he'
          exact absurd he' (by simp)

/-- Container holding one unnamed singleton registration for type A with
no dependencies: a concrete well-typed state. -/
def c5w : BeanContainer :=
  (register BeanContainer.new "A" Scope.Singleton [] none).2

theorem c5w_consistent : Consistent c5w := by
  intro id d h
  have hb : mapGet c5w.beans id =
      (if Identifier.TypeSpec "A" = id
        then some ⟨⟨[], none, "A"⟩, Scope.Singleton, none⟩ else none) := rfl
  rw [hb] at h
  by_cases hid : Identifier.TypeSpec "A" = id
  · rw [if_pos hid] at h
    injection h with h
    subst h
    subst hid
    refine ⟨rfl, fun i hi => absurd hi (by simp), And.intro ?_ ?_⟩
    · intro hx
      exact Option.noConfusion hx
    · intro t n hmem
      exact absurd hmem (by simp)
  · rw [if_neg hid] at h
    exact absurd h (by simp)

/-- Container holding a named Prototype registration "x" at type A (plus
its auto-created fallback): the name carries no type, so requesting it at
type B reaches the failing downcast. -/
def c5bad : BeanContainer :=
  (register_named BeanContainer.new "x" "A" Scope.Prototype [] none).2

/-- C5 (amended): a resolution through try_get never returns the
TypeMismatch ("Type downcast failed") error, and keeps the container
well-typed, provided the container is well-typed (Consistent: unnamed
entries produce their own type, caches hold their factory's output type,
factories neither fail with the downcast message nor issue
type-inconsistent named dependency requests) and a named request is made
at the type its name was registered under (RequestOK). Without the
named-request proviso the error is reachable, because Named identifiers
carry no type (claim_c5_counterexample). -/
theorem claim_c5 (fuel : Nat) (s : BeanContainer) (ty : TypeName)
    (name : Option String) (r : Except String Instance) (s' : BeanContainer)
    (hc : Consistent s) (hreq : RequestOK s.beans ty name)
    (h : try_get fuel s ty name = (r, s')) :
    Consistent s' ∧ ∀ e : String, r = .error e → e ≠ "Type downcast failed" := by
  rcases hG : get_with_context fuel s ty name [] with ⟨r0, s0, ctx0⟩
  have hred : try_get fuel s ty name = (r0, s0) := by
    simp [try_get, hG]
  rw [hred] at h
  have h1 : r0 = r := congrArg Prod.fst h
  have h2 : s0 = s' := congrArg Prod.snd h
  obtain ⟨hc0, hne0⟩ := gwc_mismatchFree fuel s ty name [] r0 s0 ctx0 hc hreq hG
  subst h2
  exact ⟨hc0, fun e he => hne0 e (by rw [h1]; exact he)⟩

/-- C5 witness: on the well-typed one-singleton container the unnamed get
succeeds, and the theorem applies: its result cannot be the downcast
error. -/
theorem claim_c5_witness :
    (try_get 2 c5w "A" none).1 = Except.ok ⟨0, "A"⟩ ∧
    (try_get 2 c5w "A" none).1 ≠ Except.error "Type downcast failed" :=
  ⟨by decide,
    fun hcontra =>
      (claim_c5 2 c5w "A" none (try_get 2 c5w "A" none).1
        (try_get 2 c5w "A" none).2 c5w_consistent
        (fun n hn => Option.noConfusion hn) rfl).2
        "Type downcast failed" hcontra rfl⟩

/-- C5 counterexample: after register_named "x" at type A, a get_named
request for "x" at type B returns the TypeMismatch error through the
public result - the claim is false without the type-consistent-request
proviso. -/
theorem claim_c5_counterexample :
    (try_get 5 c5bad "B" (some "x")).1 = Except.error "Type downcast failed" := by
  decide

end RsBean
